import Mathlib

/-! SysEx ingestion of afx2lg.

A shallow embedding of `axefx/axe_fx_sysex_parser.cc`: the frame scanner
`ParseSysExBuffer`, the per-message gate `ParseSingleSysEx`, the header
dispatcher `ParseFractalSysEx` and the field decoders `ParsePresetId`,
`ParsePresetProperties`; and of the parts of `axys/tree_root_item.cc` that put
the parsed presets into the list, `TreeRootItem::addPresetsFromFile`, and that
reorder the list, `TreeRootItem::itemDropped`, `TreeRootItem::moveSelectionUp`
and the `UndoablePresetIdAction` they perform.

Conventions.
* A `const byte*` is an address (`Nat`) into a `Memory`, so that the
  `reinterpret_cast`s of the source read the same bytes here.
* The declarations of `sysex_types.h`, `preset.h` and `common_types.h` are not
  part of the sources at hand. The constants, sizes, accessors and helpers the
  parser takes from them are fields of `SysExTypes`, and the theorems hold for
  every value of these fields; `PresetMap`, `ASSERT` and the three bytes of a
  `Fractal16bit` are modelled as their doc comments say.
* `stderr`/`stdout` output and a few ghost markers (calls, the id assignment,
  the store insertion) are collected as a list of `Event`s next to the state.
  Output guarded by `_DEBUG` is left out.
-/

set_option maxRecDepth 100000

namespace axefx

/-- The byte stored at each address, as seen through a `const byte*`. -/
abbrev Memory := Nat → Nat

/-- Two 7-bit bytes, most significant first (`header.preset_number.ms`, `.ls`). -/
structure SeptetPair where
  ms : Nat
  ls : Nat
deriving DecidableEq, Repr

/-- Modelled from the spec: the packed 16-bit value of `sysex_types.h`, which the
spec describes as three raw bytes; the source names them `b1`, `b2`, `b3`. -/
structure Fractal16bit where
  b1 : Nat
  b2 : Nat
  b3 : Nat
deriving DecidableEq, Repr

/-- The value of `sizeof(values[0])`, three bytes. -/
def sizeof_Fractal16bit : Nat := 3

/-- The fields of `Preset` that the parser touches. -/
structure Preset where
  id : Int
  name : String
deriving DecidableEq, Repr

/-- Modelled from the spec: `PresetMap` (declared in `preset.h`) is the mapping from
preset id to preset record; it is kept as a list of pairs in ascending key order
with one entry per key, the way a `std::map<int, Preset>` iterates. -/
abbrev PresetMap := List (Int × Preset)

/-- The entry stored under key `k`, if any. -/
def PresetMap.find (m : PresetMap) (k : Int) : Option Preset :=
  match m with
  | [] => none
  | e :: rest => if e.1 = k then some e.2 else PresetMap.find rest k

/-- The pair `kv` put at its place in ascending key order. -/
def PresetMap.place (m : PresetMap) (kv : Int × Preset) : PresetMap :=
  match m with
  | [] => [kv]
  | e :: rest => if kv.1 < e.1 then kv :: e :: rest else e :: PresetMap.place rest kv

/-- The `insert` of `std::map`: the map is left as it is when the key is already
taken, and the pair is added at its place in key order when the key is free. -/
def PresetMap.insert (m : PresetMap) (kv : Int × Preset) : PresetMap :=
  if (m.find kv.1).isSome then m else m.place kv

/-- What the parser uses from headers that are not among the sources
(`sysex_types.h`, `common_types.h`): constants, sizes, field accessors and helper
functions. Accessors take the memory and the address of the header. -/
structure SysExTypes where
  kSysExStart : Nat
  kSysExEnd : Nat
  kFractalMidiId : List Nat
  kSysExTerminationByteCount : Nat
  AXE_FX_II : Nat
  PRESET_ID : Nat
  PRESET_PROPERTY : Nat
  PRESET_EPILOGUE : Nat
  /-- Case labels of one `switch` are distinct. -/
  id_ne_property : PRESET_ID ≠ PRESET_PROPERTY
  id_ne_epilogue : PRESET_ID ≠ PRESET_EPILOGUE
  property_ne_epilogue : PRESET_PROPERTY ≠ PRESET_EPILOGUE
  /-- Width of `size_t` in bits. -/
  size_t_bits : Nat
  sizeof_FractalSysExHeader : Nat
  sizeof_PresetIdHeader : Nat
  sizeof_PresetName : Nat
  /-- Offset of the field `function_id` inside `FractalSysExHeader`. -/
  offsetof_function_id : Nat
  /-- The result of `header.model()`. -/
  model : Memory → Nat → Nat
  /-- The result of `header.function()`. -/
  function : Memory → Nat → Nat
  /-- The field `preset_number` of a `PresetIdHeader`. -/
  preset_number : Memory → Nat → SeptetPair
  /-- The field `unknown` of a `PresetIdHeader`. -/
  unknown : Memory → Nat → SeptetPair
  SeptetPair_As16bit : SeptetPair → Nat
  Fractal16bit_As16bit : Fractal16bit → Nat
  /-- The result of `PresetName::ToString` for the `PresetName` at an address. -/
  PresetName_ToString : Memory → Nat → String
  /-- The result of `VerifyChecksum(sys_ex, size)`. -/
  VerifyChecksum : Memory → Nat → Nat → Bool

/-- Diagnostics written by the parser, and ghost markers of what it did. -/
inductive Event where
  /-- An `ASSERT` whose condition was false, by source line. -/
  | assert_failed (line : Nat)
  /-- The text "Not a Fractal sysex." on `stderr`. -/
  | not_fractal
  /-- The text "Invalid checksum." on `stderr`. -/
  | invalid_checksum
  /-- The text "Not an AxeFx2 SysEx" on `stderr`. -/
  | not_axefx2
  /-- The text "*** Unknown function id" on `stderr`. -/
  | unknown_function
  /-- The line "Value count: .. - val[0]=.." of chunk 2 and chunk 3. -/
  | printf_value_count (value_count : Int) (val : Nat)
  /-- The line "block (..)" for `values[i]`. -/
  | printf_block (i : Nat) (v : Nat)
  /-- The line "Found Amp1 type=..". -/
  | printf_amp1 (i : Nat) (type : Nat) (bypassed : Bool) (x : Bool) (next : Nat)
      (p : Preset)
  /-- The line "Found Amp2 type=..". -/
  | printf_amp2 (i : Nat) (type : Nat) (p : Preset)
  /-- Ghost: `ParseSingleSysEx` was entered with these arguments. -/
  | call_ParseSingleSysEx (preset_chunk_id : Int) (sys_ex : Nat) (size : Nat)
  /-- Ghost: `ParseFractalSysEx` was entered with these arguments. -/
  | call_ParseFractalSysEx (preset_chunk_id : Int) (header : Nat) (size : Nat)
  /-- Ghost: `ParsePresetId` assigned this id to the in-flight preset. -/
  | id_assigned (id : Int)
  /-- Ghost: `presets_.insert` was called with this key and preset. -/
  | inserted (key : Int) (p : Preset)
deriving DecidableEq, Repr

/-- Modelled from the spec: the `ASSERT` of `common_types.h`, which the spec describes
as a check whose failure is reported and is not fatal. It yields the report. -/
def ASSERT (c : Prop) [Decidable c] (line : Nat) : List Event :=
  if c then [] else [Event.assert_failed line]

/-- The state the parser works on: the member `presets_`, and the locals `preset` and
`preset_chunk_id` of `ParseSysExBuffer` that the other functions get by pointer. -/
structure ParserState where
  presets_ : PresetMap
  preset : Preset
  preset_chunk_id : Int
deriving DecidableEq, Repr

/-- The function `SysExParser::ParsePresetId`. -/
def ParsePresetId (T : SysExTypes) (mem : Memory) (header size : Nat)
    (preset : Preset) : Preset × List Event :=
  let preset_number := T.preset_number mem header
  let id : Int :=
    if preset_number.ms = 0x7f ∧ preset_number.ls = 0x0 then -1
    else (T.SeptetPair_As16bit preset_number : Int)
  ({ preset with id := id },
    ASSERT (T.function mem header = T.PRESET_ID) 20 ++
    ASSERT (size = T.sizeof_PresetIdHeader + T.kSysExTerminationByteCount) 21 ++
    [Event.id_assigned id] ++
    ASSERT (T.SeptetPair_As16bit (T.unknown mem header) = 0x10) 30)

/-- The address of `values[i]`, where `values` is `&header.function_id` seen as an
array of `Fractal16bit`. -/
def values_addr (T : SysExTypes) (header i : Nat) : Nat :=
  header + T.offsetof_function_id + i * sizeof_Fractal16bit

/-- The element `values[i]`. -/
def values (T : SysExTypes) (mem : Memory) (header i : Nat) : Fractal16bit :=
  let a := values_addr T header i
  ⟨mem a, mem (a + 1), mem (a + 2)⟩

/-- Conversion of an unsigned value to `int` (32 bits, two's complement). -/
def to_int (u : Nat) : Int :=
  let r : Nat := u % 2 ^ 32
  if r < 2 ^ 31 then (r : Int) else (r : Int) - 2 ^ 32

/-- The local `value_count`: `(size - sizeof(FractalSysExHeader) - 1) / sizeof(values[0])`,
computed in `size_t` and stored in an `int`. -/
def value_count (T : SysExTypes) (size : Nat) : Int :=
  let w := 2 ^ T.size_t_bits
  let d := (size % w + (w - (T.sizeof_FractalSysExHeader + 1) % w)) % w
  to_int (d / sizeof_Fractal16bit)

/-- The output of the loop over chunk 2: `for (int i = 0; i <= value_count; ++i)`. -/
def enumerate_blocks (T : SysExTypes) (mem : Memory) (header : Nat) (vc : Int) :
    List Event :=
  (List.range (vc + 1).toNat).filterMap fun i =>
    let v := T.Fractal16bit_As16bit (values T mem header i)
    if v ≠ 0 ∧ v ≠ 2 then some (Event.printf_block i v) else none

/-- The output of the loop over chunk 3: `for (int i = 2; i < value_count; ++i)`. -/
def scan_amps (T : SysExTypes) (mem : Memory) (header : Nat) (vc : Int)
    (preset : Preset) : List Event :=
  (List.range' 2 (vc.toNat - 2)).filterMap fun i =>
    let v := values T mem header i
    if v.b1 = 0x6A then
      let x : Bool := decide (v.b3 &&& 0x2 = 0)
      let bypassed : Bool := decide (v.b3 &&& 0x1 ≠ 0)
      some (Event.printf_amp1 i (T.Fractal16bit_As16bit (values T mem header (i + 2)))
        bypassed x (T.Fractal16bit_As16bit (values T mem header (i + 1))) preset)
    else if T.Fractal16bit_As16bit v = 0x6B then
      some (Event.printf_amp2 i (T.Fractal16bit_As16bit (values T mem header (i + 2)))
        preset)
    else none

/-- The function `SysExParser::ParsePresetProperties`. -/
def ParsePresetProperties (T : SysExTypes) (mem : Memory) (preset_chunk_id : Int)
    (header size : Nat) (preset : Preset) : Preset × List Event :=
  let vc := value_count T size
  let ev :=
    ASSERT (T.function mem header = T.PRESET_PROPERTY) 37 ++
    ASSERT (T.Fractal16bit_As16bit (values T mem header 0) = 0x2078) 43
  if T.Fractal16bit_As16bit (values T mem header 0) = 0x2078 ∧
      (values T mem header 1).b2 = 0x04 then
    let preset_name := values_addr T header 3
    ({ preset with name := T.PresetName_ToString mem preset_name },
      ev ++ ASSERT (preset_name + T.sizeof_PresetName < header + size) 48)
  else if preset_chunk_id = 2 then
    (preset,
      ev ++ [Event.printf_value_count vc (T.Fractal16bit_As16bit (values T mem header 1))]
        ++ enumerate_blocks T mem header vc)
  else if preset_chunk_id = 3 then
    (preset,
      ev ++ [Event.printf_value_count vc (T.Fractal16bit_As16bit (values T mem header 1))]
        ++ scan_amps T mem header vc preset)
  else (preset, ev)

/-- The function `SysExParser::ParseFractalSysEx`. -/
def ParseFractalSysEx (T : SysExTypes) (mem : Memory) (header size : Nat)
    (st : ParserState) : ParserState × List Event :=
  let ev := [Event.call_ParseFractalSysEx st.preset_chunk_id header size] ++
    ASSERT (0 < size) 133
  if T.model mem header ≠ T.AXE_FX_II then (st, ev ++ [Event.not_axefx2])
  else if T.function mem header = T.PRESET_ID then
    let r := ParsePresetId T mem header size st.preset
    ({ st with preset := r.1 }, ev ++ r.2)
  else if T.function mem header = T.PRESET_PROPERTY then
    let r := ParsePresetProperties T mem st.preset_chunk_id header size st.preset
    ({ st with preset := r.1 }, ev ++ r.2)
  else if T.function mem header = T.PRESET_EPILOGUE then
    if st.preset.name ≠ "" then
      ({ presets_ := st.presets_.insert (st.preset.id, st.preset),
         preset := { st.preset with id := -1 },
         preset_chunk_id := -1 },
        ev ++ [Event.inserted st.preset.id st.preset])
    else ({ st with preset_chunk_id := -1 }, ev)
  else (st, ev ++ [Event.unknown_function])

/-- The bytes that `memcmp(&sys_ex[1], &kFractalMidiId[0], sizeof(kFractalMidiId))`
compares with `kFractalMidiId`. -/
def manufacturer_bytes (T : SysExTypes) (mem : Memory) (sys_ex : Nat) : List Nat :=
  (List.range T.kFractalMidiId.length).map fun i => mem (sys_ex + 1 + i)

/-- The function `SysExParser::ParseSingleSysEx`. -/
def ParseSingleSysEx (T : SysExTypes) (mem : Memory) (sys_ex size : Nat)
    (st : ParserState) : ParserState × List Event :=
  let ev := [Event.call_ParseSingleSysEx st.preset_chunk_id sys_ex size] ++
    ASSERT (mem sys_ex = T.kSysExStart) 170 ++
    ASSERT (mem (sys_ex + size - 1) = T.kSysExEnd) 171
  if size < T.kFractalMidiId.length + T.kSysExTerminationByteCount ∨
      manufacturer_bytes T mem sys_ex ≠ T.kFractalMidiId then
    (st, ev ++ [Event.not_fractal])
  else if T.VerifyChecksum mem sys_ex size = false then
    (st, ev ++ [Event.invalid_checksum])
  else
    let r := ParseFractalSysEx T mem sys_ex size st
    (r.1, ev ++ r.2)

/-- The variables of the loop of `ParseSysExBuffer`, and the output so far. -/
structure ScanState where
  sys_ex_begins : Option Nat
  st : ParserState
  log : List Event
deriving DecidableEq, Repr

/-- How a run of `ParseSysExBuffer` ends: it returns, or it hands a null
`sys_ex_begins` to `ParseSingleSysEx`, which dereferences it. -/
inductive Outcome where
  | returned (s : ScanState)
  | null_dereference (s : ScanState)
deriving DecidableEq, Repr

/-- The `while (pos < end)` loop of `ParseSysExBuffer`, with `n = end - pos` bytes to
go. -/
def scan (T : SysExTypes) (mem : Memory) : Nat → Nat → ScanState → Outcome
  | 0, _, s => Outcome.returned s
  | n + 1, pos, s =>
    if mem pos = T.kSysExStart then
      scan T mem n (pos + 1)
        { s with sys_ex_begins := some pos,
                 log := s.log ++ ASSERT (s.sys_ex_begins = none) 196 }
    else if mem pos = T.kSysExEnd then
      match s.sys_ex_begins with
      | none =>
        Outcome.null_dereference
          { s with log := s.log ++ ASSERT (s.sys_ex_begins ≠ none) 199 }
      | some b =>
        let r := ParseSingleSysEx T mem b (pos - b + 1) s.st
        scan T mem n (pos + 1)
          { sys_ex_begins := none,
            st := { r.1 with preset_chunk_id := r.1.preset_chunk_id + 1 },
            log := s.log ++ r.2 }
    else scan T mem n (pos + 1) s

/-- The state in which `ParseSysExBuffer` enters its loop. -/
def initial (presets_ : PresetMap) : ScanState :=
  { sys_ex_begins := none,
    st := { presets_ := presets_, preset := { id := -1, name := "" },
            preset_chunk_id := 0 },
    log := [] }

/-- The function `SysExParser::ParseSysExBuffer`, on a parser whose store is
`presets_`. -/
def ParseSysExBuffer (T : SysExTypes) (mem : Memory) (begin_ end_ : Nat)
    (presets_ : PresetMap) : Outcome :=
  match scan T mem (end_ - begin_) begin_ (initial presets_) with
  | Outcome.returned s =>
    Outcome.returned { s with log := s.log ++ ASSERT (s.sys_ex_begins = none) 207 }
  | Outcome.null_dereference s => Outcome.null_dereference s

/-! ## Adding the parsed presets to the list (axys/tree_root_item.cc) -/

/-- The locals of the loop of `TreeRootItem::addPresetsFromFile` over the parsed
presets: the presets added to `action`, `presets_added` and `failed_add_count`. -/
structure AddState (P : Type) where
  action : List P
  presets_added : Bool
  failed_add_count : Nat

/-- One turn of the loop `for (auto& p : presets)`. The methods `is_global_setting()`
and `from_edit_buffer()` belong to a class that is not among the sources; they are
parameters. -/
def add_preset {P : Type} (is_global_setting from_edit_buffer : P → Bool)
    (allow_edit_buffer_presets_ : Bool) (s : AddState P) (p : Int × P) : AddState P :=
  let preset := p.2
  let add := !is_global_setting preset
  let add := if add && !allow_edit_buffer_presets_ then !from_edit_buffer preset else add
  if add then { s with action := s.action ++ [preset], presets_added := true }
  else { s with failed_add_count := s.failed_add_count + 1 }

/-- What a call of `addPresetsFromFile` does: its return value, the message it writes
to `*err` if any, and the action it hands to `undo_manager_->perform` if any. -/
structure AddResult (P : Type) where
  ret : Int
  err : Option String
  performed : Option (List P)

/-- The presets queued in `action` when the loop over `presets` is done. -/
def queued {P : Type} (is_global_setting from_edit_buffer : P → Bool)
    (allow_edit_buffer_presets_ : Bool) (presets : List (Int × P)) : List P :=
  (presets.foldl (add_preset is_global_setting from_edit_buffer allow_edit_buffer_presets_)
    { action := [], presets_added := false, failed_add_count := 0 }).action

/-- The function `TreeRootItem::addPresetsFromFile` from line 243 on, that is once the
file `path` has been loaded and parsed into the map `presets` (the steps before
return -1 with a message of their own when they fail). -/
def addPresetsFromFile {P : Type} (is_global_setting from_edit_buffer : P → Bool)
    (allow_edit_buffer_presets_ : Bool) (path : String) (presets : List (Int × P)) :
    AddResult P :=
  let s := presets.foldl
    (add_preset is_global_setting from_edit_buffer allow_edit_buffer_presets_)
    { action := [], presets_added := false, failed_add_count := 0 }
  if !s.presets_added then
    if s.failed_add_count ≠ 0 then
      { ret := -1,
        err := some ("Could not add presets from this file: " ++ path ++
          "\nEither the file contains system data or preset(s) without an ID."),
        performed := none }
    else
      { ret := -1, err := some "No presets were found in this file :-|",
        performed := none }
  else { ret := 1, err := none, performed := some s.action }

/-! ## Reordering the list (axys/tree_root_item.cc) -/

/-- A sub-item of the tree root, as far as the reordering code looks at it: the id of
its preset and whether the item is selected. The name tells the items apart. -/
structure PresetItem where
  id : Int
  name : String
  selected : Bool
deriving DecidableEq, Repr

/-- An entry of `UndoablePresetIdAction`. The pointer `preset` is kept as the position
that the item has in the tree while the action is built and performed. -/
structure PresetIdChange where
  preset : Nat
  original_id : Int
  new_id : Int
deriving DecidableEq, Repr

/-- The result of `getPreset(i)->id()`. -/
def id_at (items : List PresetItem) (i : Nat) : Int :=
  match items[i]? with
  | some p => p.id
  | none => 0

/-- The result of `getPreset(i)->isSelected()`. -/
def selected_at (items : List PresetItem) (i : Nat) : Bool :=
  match items[i]? with
  | some p => p.selected
  | none => false

/-- The tree after `getPreset(i)->set_id(v)`. -/
def set_id : List PresetItem → Nat → Int → List PresetItem
  | [], _, _ => []
  | p :: ps, 0, v => { p with id := v } :: ps
  | p :: ps, i + 1, v => p :: set_id ps i v

/-- The action after `action->AddPreset(getPreset(i), new_id)`: the entry records the
id that the item has at that moment. -/
def AddPreset (items : List PresetItem) (action : List PresetIdChange) (i : Nat)
    (new_id : Int) : List PresetIdChange :=
  action ++ [{ preset := i, original_id := id_at items i, new_id := new_id }]

/-- The tree after `sortPresets()`: sorted with `ComparePresets`, that is by id. The
source does not say in which order items with equal ids end up; here they keep the
order they had. -/
def sortPresets (items : List PresetItem) : List PresetItem :=
  items.insertionSort fun a b => a.id ≤ b.id

/-- The loop of `SwitchIds(true)`: every entry sets the id of its item to `new_id`,
in the order of the entries. -/
def switch_to_new (action : List PresetIdChange) (items : List PresetItem) :
    List PresetItem :=
  action.foldl (fun t c => set_id t c.preset c.new_id) items

/-- The tree after `UndoablePresetIdAction::perform`, that is `SwitchIds(true)`: the
ids are switched and `refreshTree(root_, true)` sorts the tree. -/
def perform (action : List PresetIdChange) (items : List PresetItem) : List PresetItem :=
  sortPresets (switch_to_new action items)

/-- The locals of the two scanning loops of `itemDropped`. -/
structure DropState where
  preset : Option Nat
  selected : List Nat
  action : List PresetIdChange

/-- One turn of the loop over the items before the insert point (lines 383 to 390). -/
def drop_before (items : List PresetItem) (st : DropState) (i : Nat) : DropState :=
  let selected := if selected_at items i then st.selected ++ [i] else st.selected
  { preset := some i,
    selected := selected,
    action :=
      if selected.length ≠ 0 then
        AddPreset items st.action i (id_at items i - selected.length)
      else st.action }

/-- One turn of the loop over the items from the insert point on (lines 400 to 407). -/
def drop_after (items : List PresetItem) (st : DropState) (i : Nat) : DropState :=
  let selected := if selected_at items i then st.selected ++ [i] else st.selected
  { preset := some i,
    selected := selected,
    action :=
      if selected.length ≠ 0 then
        AddPreset items st.action i (id_at items i + selected.length)
      else st.action }

/-- The tree after `TreeRootItem::itemDropped` with `insert_index` at most the number
of items: the scan before the insert point, the direct `set_id` of the items selected
there (lines 392 to 395), the scan from the end down to the insert point, the entries
for the items selected there (lines 410 to 412), and `perform` if the action has
entries. -/
def itemDropped (items : List PresetItem) (insert_index : Nat) : List PresetItem :=
  let st1 := (List.range insert_index).foldl (drop_before items)
    { preset := none, selected := [], action := [] }
  let new_id : Int :=
    match st1.preset with
    | some j => id_at items j + 1
    | none => 0
  let set1 := st1.selected.foldl (fun (tv : List PresetItem × Int) n =>
    (set_id tv.1 n tv.2, tv.2 + 1)) (items, new_id)
  let tree := set1.1
  let new_id := set1.2
  let count := tree.length
  let st2 := (List.range' insert_index (count - insert_index)).reverse.foldl
    (drop_after tree) { preset := st1.preset, selected := [], action := st1.action }
  let new_id := new_id + st2.selected.length
  let add2 := st2.selected.foldl (fun (av : List PresetIdChange × Int) n =>
    (AddPreset tree av.1 n (av.2 - 1), av.2 - 1)) (st2.action, new_id)
  let action := add2.1
  if action.length ≠ 0 then perform action tree else tree

/-- The `do ... while` of `moveSelectionUp` (lines 310 to 315), entered with `p` the
item at `i`: it gives back `i`, `new_id` and the action as the loop leaves them. The
first argument bounds the number of turns. -/
def move_up_run (items : List PresetItem) :
    Nat → Nat → Int → List PresetIdChange → Nat × Int × List PresetIdChange
  | 0, i, new_id, action => (i, new_id, action)
  | fuel + 1, i, new_id, action =>
    let action := AddPreset items action i new_id
    let new_id := new_id + 1
    let i := i + 1
    if i < items.length ∧ selected_at items i = true then
      move_up_run items fuel i new_id action
    else (i, new_id, action)

/-- The `for` loop of `moveSelectionUp` (lines 306 to 319), from index `i` on, with
`previous` the position of the item that `previous` points to. The first argument
bounds the number of turns. -/
def move_up_loop (items : List PresetItem) :
    Nat → Nat → Option Nat → List PresetIdChange → List PresetIdChange
  | 0, _, _, action => action
  | fuel + 1, i, previous, action =>
    if i < items.length then
      match previous with
      | some q =>
        if selected_at items i = true ∧ selected_at items q = false then
          let r := move_up_run items items.length i (id_at items q) action
          let action := AddPreset items r.2.2 q r.2.1
          let p := if r.1 < items.length then r.1 else r.1 - 1
          move_up_loop items fuel (r.1 + 1) (some p) action
        else move_up_loop items fuel (i + 1) (some i) action
      | none => move_up_loop items fuel (i + 1) (some i) action
    else action

/-- The tree after `TreeRootItem::moveSelectionUp`. Each turn of a loop moves `i` on by
one at least, so the number of items bounds the turns of either loop. -/
def moveSelectionUp (allow_drag_drop_of_presets_ : Bool) (items : List PresetItem) :
    List PresetItem :=
  if !allow_drag_drop_of_presets_ then items
  else
    let action := move_up_loop items items.length 0 none []
    if action.length ≠ 0 then perform action items else items

/-! ## Predicates and projections used in the statements -/

/-- What `ParseSingleSysEx` writes before its first test. -/
def ParseSingleSysEx_entry (T : SysExTypes) (mem : Memory) (sys_ex size : Nat)
    (st : ParserState) : List Event :=
  [Event.call_ParseSingleSysEx st.preset_chunk_id sys_ex size] ++
    ASSERT (mem sys_ex = T.kSysExStart) 170 ++
    ASSERT (mem (sys_ex + size - 1) = T.kSysExEnd) 171

/-- The `size` bytes from `sys_ex` on are one frame: a start marker, bytes that are no
marker, and an end marker. -/
def is_frame (T : SysExTypes) (mem : Memory) (sys_ex size : Nat) : Prop :=
  2 ≤ size ∧ mem sys_ex = T.kSysExStart ∧ mem (sys_ex + size - 1) = T.kSysExEnd ∧
  ∀ i, i < size - 2 →
    mem (sys_ex + 1 + i) ≠ T.kSysExStart ∧ mem (sys_ex + 1 + i) ≠ T.kSysExEnd

instance (T : SysExTypes) (mem : Memory) (sys_ex size : Nat) :
    Decidable (is_frame T mem sys_ex size) := by
  unfold is_frame
  infer_instance

/-- The frame at `sys_ex` is a valid Axe-Fx II message with function code `f`: it has
the Fractal manufacturer id, passes `VerifyChecksum`, and its header gives the model
`AXE_FX_II` and the function `f`. -/
def is_axefx2_message (T : SysExTypes) (mem : Memory) (sys_ex size f : Nat) : Prop :=
  is_frame T mem sys_ex size ∧
  T.kFractalMidiId.length + T.kSysExTerminationByteCount ≤ size ∧
  manufacturer_bytes T mem sys_ex = T.kFractalMidiId ∧
  T.VerifyChecksum mem sys_ex size = true ∧
  T.model mem sys_ex = T.AXE_FX_II ∧
  T.function mem sys_ex = f

instance (T : SysExTypes) (mem : Memory) (sys_ex size f : Nat) :
    Decidable (is_axefx2_message T mem sys_ex size f) := by
  unfold is_axefx2_message
  infer_instance

/-- The loop variables after the scanner has consumed the frame at `sys_ex`. -/
def after_frame (T : SysExTypes) (mem : Memory) (sys_ex size : Nat) (s : ScanState) :
    ScanState :=
  { sys_ex_begins := none,
    st := { (ParseSingleSysEx T mem sys_ex size s.st).1 with
            preset_chunk_id :=
              (ParseSingleSysEx T mem sys_ex size s.st).1.preset_chunk_id + 1 },
    log := s.log ++ (ParseSingleSysEx T mem sys_ex size s.st).2 }

/-- Start and end markers alternate in the `n` bytes from `pos` on: no start marker
inside a frame, no end marker outside of one, and no frame left open at the end.
`in_frame` tells whether a frame is open at `pos`. -/
def well_framed (T : SysExTypes) (mem : Memory) : Nat → Nat → Bool → Bool
  | 0, _, in_frame => !in_frame
  | n + 1, pos, in_frame =>
    if mem pos = T.kSysExStart then !in_frame && well_framed T mem n (pos + 1) true
    else if mem pos = T.kSysExEnd then in_frame && well_framed T mem n (pos + 1) false
    else well_framed T mem n (pos + 1) in_frame

/-- Replay of the parser's output. `cur` is the id that the parser has in flight: the
one assigned by the last `PRESET_ID` message since the last insertion into the store,
and -1 if there was none. Every insertion must use `cur` as its key and as the id of
the stored preset; the replay fails otherwise. The result is the id left in flight. -/
def expected_id : Int → List Event → Option Int
  | cur, [] => some cur
  | _, Event.id_assigned v :: es => expected_id v es
  | cur, Event.inserted k p :: es =>
    if k = cur ∧ p.id = cur then expected_id (-1) es else none
  | cur, _ :: es => expected_id cur es

/-- An event that neither assigns an id nor inserts into the store. -/
def Event.neutral : Event → Bool
  | Event.id_assigned _ => false
  | Event.inserted _ _ => false
  | _ => true

/-- What a run leaves behind apart from its output and the chunk counter: whether it
returned, the frame left open, the store and the in-flight preset. -/
def Outcome.data : Outcome → Bool × Option Nat × PresetMap × Preset
  | Outcome.returned s => (true, s.sys_ex_begins, s.st.presets_, s.st.preset)
  | Outcome.null_dereference s => (false, s.sys_ex_begins, s.st.presets_, s.st.preset)

/-- The slices `(sys_ex, size)` that `ParseSingleSysEx` was called with, in order. -/
def calls : List Event → List (Nat × Nat)
  | [] => []
  | Event.call_ParseSingleSysEx _ a n :: es => (a, n) :: calls es
  | _ :: es => calls es

/-- The positions of the end markers among the `n` bytes from `pos` on, in order. -/
def end_markers (T : SysExTypes) (mem : Memory) (pos n : Nat) : List Nat :=
  (List.range' pos n).filter fun e => decide (mem e = T.kSysExEnd)

/-- An event by which the scanner records a call of `ParseSingleSysEx`. -/
def Event.is_call_single : Event → Bool
  | Event.call_ParseSingleSysEx _ _ _ => true
  | _ => false

/-- The id that `ParsePresetId` assigns when it reads the message at `header`. -/
def assigned_id (T : SysExTypes) (mem : Memory) (header : Nat) : Int :=
  (ParsePresetId T mem header 0 { id := -1, name := "" }).1.id

/-- The message at `sys_ex` passes the tests of `ParseSingleSysEx` and reaches the case
`PRESET_EPILOGUE` of `ParseFractalSysEx`. -/
def handled_epilogue (T : SysExTypes) (mem : Memory) (sys_ex size : Nat) : Bool :=
  decide (¬ (size < T.kFractalMidiId.length + T.kSysExTerminationByteCount ∨
      manufacturer_bytes T mem sys_ex ≠ T.kFractalMidiId) ∧
    T.VerifyChecksum mem sys_ex size = true ∧
    T.model mem sys_ex = T.AXE_FX_II ∧
    T.function mem sys_ex = T.PRESET_EPILOGUE)

/-- Replay of the calls of `ParseSingleSysEx` in the parser's output. `cur` is the
number of messages consumed since the most recent handled epilogue, or since the
start of the buffer. Every call must carry `cur` as its chunk counter; the replay fails
otherwise. After a call `cur` is 0 if the message was a handled epilogue and goes up
by one if not. The result is the count at the end. -/
def expected_counter (T : SysExTypes) (mem : Memory) : Int → List Event → Option Int
  | cur, [] => some cur
  | cur, Event.call_ParseSingleSysEx c a n :: es =>
    if c = cur then
      expected_counter T mem (if handled_epilogue T mem a n then 0 else cur + 1) es
    else none
  | cur, _ :: es => expected_counter T mem cur es

/-- Every entry of the store has a non-empty name and a key equal to the id of the
preset stored under it. -/
def store_ok (m : PresetMap) : Prop :=
  ∀ e ∈ m, e.2.name ≠ "" ∧ e.1 = e.2.id

instance (m : PresetMap) : Decidable (store_ok m) := by
  unfold store_ok
  infer_instance

/-- The loop variables with which a run ends, whether it returns or stops at the null
dereference. -/
def Outcome.state : Outcome → ScanState
  | Outcome.returned s => s
  | Outcome.null_dereference s => s

/-- The stores a parser can hold: the empty one it is constructed with, and the one
left by a call of `ParseSysExBuffer`, on any buffer of any memory, on a parser that
holds a reachable store. -/
inductive Reachable (T : SysExTypes) : PresetMap → Prop where
  | empty : Reachable T []
  | call (mem : Memory) (begin_ end_ : Nat) (m : PresetMap) :
      Reachable T m →
      Reachable T (ParseSysExBuffer T mem begin_ end_ m).state.st.presets_

/-- The items `ps` with the consecutive ids `v`, `v + 1`, and so on. -/
def renumber : Int → List PresetItem → List PresetItem
  | _, [] => []
  | v, p :: ps => { p with id := v } :: renumber (v + 1) ps

/-- A run of selected presets and the unselected preset `u` directly before it, after
the move: the run takes consecutive ids starting at the old id of `u`, and `u`
follows it with the next id. A run with no preset before it stays as it is. -/
def emit_run (u : Option PresetItem) (run : List PresetItem) : List PresetItem :=
  match u with
  | none => run
  | some u => renumber u.id run ++ [{ u with id := u.id + run.length }]

/-- The list that the claim describes, read from left to right: `u` is the last
unselected preset seen and `run` the selected presets seen since; an unselected
preset ends the run, which is then put out with `emit_run`. -/
def move_up_spec (u : Option PresetItem) (run : List PresetItem) :
    List PresetItem → List PresetItem
  | [] => emit_run u run
  | p :: rest =>
    if p.selected then move_up_spec u (run ++ [p]) rest
    else emit_run u run ++ move_up_spec (some p) [] rest

/-- The items with the ids that `moveSelectionUp` gives them, each at the place it had
before. The state is the old id of the unselected preset before the current run and
the number of selected presets seen since. -/
def relabel : Option (Int × Nat) → List PresetItem → List PresetItem
  | _, [] => []
  | st, p :: rest =>
    if p.selected then
      match st with
      | some (base, j) => { p with id := base + j } :: relabel (some (base, j + 1)) rest
      | none => p :: relabel none rest
    else
      { p with id := p.id + (rest.takeWhile fun x => x.selected).length } ::
        relabel (some (p.id, 0)) rest

/-- The entries that the `do ... while` adds for the items `xs` that start at position
`i`, with the ids from `v` on. -/
def run_changes : Nat → Int → List PresetItem → List PresetIdChange
  | _, _, [] => []
  | i, v, x :: xs =>
    { preset := i, original_id := x.id, new_id := v } :: run_changes (i + 1) (v + 1) xs

/-! ## One set of declarations, for concrete runs -/

/-- The memory that holds `bytes` from address 0 on, and 0 elsewhere. -/
def memory_of (bytes : List Nat) : Memory := fun a => bytes.getD a 0

/-- The exclusive or of the `n` bytes from address `a` on. -/
def xor_bytes (mem : Memory) (a : Nat) : Nat → Nat
  | 0 => 0
  | n + 1 => xor_bytes mem a n ^^^ mem (a + n)

/-- Modelled from the spec: one instance of the declarations of `sysex_types.h`, which
is not among the sources. The spec fixes the role of each declaration and not its
value; the values here follow the MIDI and Axe-Fx II wire format: markers `F0` and
`F7`; a header made of the start byte, three manufacturer bytes, the model and the
function code; septets packed seven bits apiece; a checksum byte before the end
marker that is the exclusive or of all bytes before it, cut to seven bits; a name of
32 packed characters that ends at the first zero. It serves concrete runs only: a
statement with a variable `T` does not depend on it. -/
def sample_types : SysExTypes where
  kSysExStart := 0xF0
  kSysExEnd := 0xF7
  kFractalMidiId := [0x00, 0x01, 0x74]
  kSysExTerminationByteCount := 2
  AXE_FX_II := 3
  PRESET_ID := 0x77
  PRESET_PROPERTY := 0x78
  PRESET_EPILOGUE := 0x79
  id_ne_property := by decide
  id_ne_epilogue := by decide
  property_ne_epilogue := by decide
  size_t_bits := 32
  sizeof_FractalSysExHeader := 6
  sizeof_PresetIdHeader := 10
  sizeof_PresetName := 96
  offsetof_function_id := 5
  model := fun mem header => mem (header + 4)
  function := fun mem header => mem (header + 5)
  preset_number := fun mem header => ⟨mem (header + 6), mem (header + 7)⟩
  unknown := fun mem header => ⟨mem (header + 8), mem (header + 9)⟩
  SeptetPair_As16bit := fun p => (p.ms % 128) * 128 + p.ls % 128
  Fractal16bit_As16bit := fun v => v.b1 % 128 + (v.b2 % 128) * 128 + (v.b3 % 4) * 16384
  PresetName_ToString := fun mem a =>
    String.mk ((((List.range 32).map fun i => mem (a + 3 * i)).takeWhile
      fun c => c ≠ 0).map Char.ofNat)
  VerifyChecksum := fun mem sys_ex size =>
    decide (3 ≤ size ∧ mem (sys_ex + size - 2) = xor_bytes mem sys_ex (size - 2) % 128)

/-- A frame: the start marker, the Fractal manufacturer id, `body`, the checksum
and the end marker of `sample_types`. -/
def sample_frame (body : List Nat) : List Nat :=
  let head := [0xF0, 0x00, 0x01, 0x74] ++ body
  head ++ [head.foldl (fun a b => a ^^^ b) 0 % 128, 0xF7]

/-- A `PRESET_ID` message of `sample_types` for the packed number `ms`, `ls`. -/
def sample_id (ms ls : Nat) : List Nat :=
  sample_frame [0x03, 0x77, ms, ls, 0x00, 0x10]

/-- A name block of `sample_types`: tag `0x2078`, the triplet `02 04 00`, one more
value, and the 32 packed characters of `name`. -/
def sample_name (name : List Nat) : List Nat :=
  sample_frame ([0x03, 0x78, 0x40, 0x00, 0x02, 0x04, 0x00, 0x00, 0x00, 0x00] ++
    ((List.range 32).map fun i => [name.getD i 0, 0, 0]).flatten)

/-- A `PRESET_EPILOGUE` message of `sample_types`. -/
def sample_epilogue : List Nat :=
  sample_frame [0x03, 0x79]

/-- The buffer of the scenario: preset 5 named "Lead". -/
def sample_lead : List Nat :=
  sample_id 0x00 0x05 ++ sample_name [76, 101, 97, 100] ++ sample_epilogue

/-- A second single-preset buffer: preset 9 named "Bass". -/
def sample_bass : List Nat :=
  sample_id 0x00 0x09 ++ sample_name [66, 97, 115, 115] ++ sample_epilogue

/-- A `PRESET_ID` message for preset 5 whose checksum byte is off by one. -/
def sample_corrupt_id : List Nat :=
  [0xF0, 0x00, 0x01, 0x74, 0x03, 0x77, 0x00, 0x05, 0x00, 0x10, 0x65, 0xF7]

/-- The identity message of preset 9 with its checksum byte `68` changed to `69`. -/
def sample_corrupt_id9 : List Nat :=
  [0xF0, 0x00, 0x01, 0x74, 0x03, 0x77, 0x00, 0x09, 0x00, 0x10, 0x69, 0xF7]

/-- A framed message of six bytes: the start marker, the Fractal manufacturer id, the
checksum and the end marker. -/
def sample_short : List Nat :=
  [0xF0, 0x00, 0x01, 0x74, 0x05, 0xF7]

/-- A framed message of another manufacturer, with a valid checksum. -/
def sample_foreign : List Nat :=
  [0xF0, 0x00, 0x20, 0x33, 0x03, 0x79, 0x19, 0xF7]

/-- A valid message of `sample_types` for another model (1 instead of 3), with the
function code of an epilogue. -/
def sample_other_model : List Nat :=
  sample_frame [0x01, 0x79]

/-- A checksum-valid `PRESET_PROPERTY` message of `sample_types` whose first packed
value is `0x20F8`, not the tag `0x2078`; two more bytes follow the second value. -/
def sample_bad_tag : List Nat :=
  sample_frame [0x03, 0x78, 0x41, 0x00, 0x05, 0x00, 0x00]

/-- A checksum-valid `PRESET_PROPERTY` message of `sample_types` with three packed
values: the tag `0x2078`, the value 5 and a value whose first byte is `6A`. -/
def sample_blocks : List Nat :=
  sample_frame [0x03, 0x78, 0x40, 0x00, 0x05, 0x00, 0x00, 0x6A, 0x00, 0x01]

/-- A checksum-valid name block of `sample_types` cut short: the tag, the triplet
`02 04 00`, one more byte, and no character run. It ends 14 bytes after its start,
which is where `&values[3]` points. -/
def sample_short_name : List Nat :=
  sample_frame [0x03, 0x78, 0x40, 0x00, 0x02, 0x04, 0x00, 0x00]

/-- A buffer with bytes outside the frames: two bytes, the identity message of preset
5, one byte, an epilogue, one byte. -/
def sample_gaps : List Nat :=
  [0x01, 0x02] ++ sample_id 0x00 0x05 ++ [0x03] ++ sample_epilogue ++ [0x04]

/-- A buffer with an unterminated tail: the preset 5 named "Lead", then a start marker
and three more bytes with no end marker. -/
def sample_open_tail : List Nat :=
  sample_lead ++ [0xF0, 0x00, 0x01, 0x74]

/-- A buffer of three messages, 34 bytes: the identity of preset 5, the name block cut
short, an epilogue. The character run of the name block starts at `&values[3]`, which
is the first byte of the epilogue. -/
def sample_short_preset : List Nat :=
  sample_id 0x00 0x05 ++ sample_short_name ++ sample_epilogue

/-- An unterminated tail: a start marker and four more bytes, none of them an end
marker. -/
def sample_tail (a b : Nat) : List Nat :=
  [0xF0, a, 0x00, 0x00, b]

/-- A buffer of five messages: the identity of preset 5, a short name block, a message
with a corrupted checksum, an epilogue, a message of another manufacturer. -/
def sample_with_corrupt : List Nat :=
  sample_id 0x00 0x05 ++ sample_short_name ++ sample_corrupt_id9 ++ sample_epilogue ++
    sample_foreign

/-- The buffer `sample_with_corrupt` without its third message. -/
def sample_without_corrupt : List Nat :=
  sample_id 0x00 0x05 ++ sample_short_name ++ sample_epilogue ++ sample_foreign

/-- Four presets with the ids 0 to 3, the second one selected. -/
def sample_items : List PresetItem :=
  [{ id := 0, name := "A", selected := false }, { id := 1, name := "B", selected := true },
   { id := 2, name := "C", selected := false }, { id := 3, name := "D", selected := false }]

/-- Seven presets with the ids 0, 1, 2, 5, 6, 7, 9; the first, the third, the fifth
and the sixth are selected. -/
def sample_selection : List PresetItem :=
  [{ id := 0, name := "A", selected := true }, { id := 1, name := "B", selected := false },
   { id := 2, name := "C", selected := true }, { id := 5, name := "D", selected := false },
   { id := 6, name := "E", selected := true }, { id := 7, name := "F", selected := true },
   { id := 9, name := "G", selected := false }]

/-! ## Lemmas: the preset store -/

theorem PresetMap.find_place_ne (m : PresetMap) (kv : Int × Preset) (j : Int)
    (h : j ≠ kv.1) : (m.place kv).find j = m.find j := by
  induction m with
  | nil =>
    have h1 : ¬ kv.1 = j := fun e => h e.symm
    simp [PresetMap.place, PresetMap.find, h1]
  | cons e rest ih =>
    have h1 : ¬ kv.1 = j := fun e => h e.symm
    unfold PresetMap.place
    by_cases hlt : kv.1 < e.1
    · simp [hlt, PresetMap.find, h1]
    · simp [hlt, PresetMap.find, ih]

theorem PresetMap.find_place_self (m : PresetMap) (kv : Int × Preset)
    (h : m.find kv.1 = none) : (m.place kv).find kv.1 = some kv.2 := by
  induction m with
  | nil => simp [PresetMap.place, PresetMap.find]
  | cons e rest ih =>
    unfold PresetMap.place
    unfold PresetMap.find at h
    by_cases he : e.1 = kv.1
    · simp [he] at h
    · simp only [he, if_false] at h
      by_cases hlt : kv.1 < e.1
      · simp [hlt, PresetMap.find]
      · simp [hlt, PresetMap.find, he, ih h]

/-! ## Lemmas: the message handlers -/

/-- What `ParseFractalSysEx` does at a `PRESET_EPILOGUE` whose in-flight name is not
empty. -/
theorem ParseFractalSysEx_epilogue_named (T : SysExTypes) (mem : Memory)
    (header size : Nat) (st : ParserState)
    (hmodel : T.model mem header = T.AXE_FX_II)
    (hfun : T.function mem header = T.PRESET_EPILOGUE)
    (hname : st.preset.name ≠ "") :
    ParseFractalSysEx T mem header size st =
      ({ presets_ := st.presets_.insert (st.preset.id, st.preset),
         preset := { st.preset with id := -1 },
         preset_chunk_id := -1 },
       [Event.call_ParseFractalSysEx st.preset_chunk_id header size] ++
         ASSERT (0 < size) 133 ++ [Event.inserted st.preset.id st.preset]) := by
  have h1 : T.PRESET_EPILOGUE ≠ T.PRESET_ID := fun e => T.id_ne_epilogue e.symm
  have h2 : T.PRESET_EPILOGUE ≠ T.PRESET_PROPERTY := fun e => T.property_ne_epilogue e.symm
  simp [ParseFractalSysEx, hmodel, hfun, hname, h1, h2]

/-- What `ParseFractalSysEx` does at a `PRESET_EPILOGUE` whose in-flight name is
empty. -/
theorem ParseFractalSysEx_epilogue_unnamed (T : SysExTypes) (mem : Memory)
    (header size : Nat) (st : ParserState)
    (hmodel : T.model mem header = T.AXE_FX_II)
    (hfun : T.function mem header = T.PRESET_EPILOGUE)
    (hname : st.preset.name = "") :
    ParseFractalSysEx T mem header size st =
      ({ st with preset_chunk_id := -1 },
       [Event.call_ParseFractalSysEx st.preset_chunk_id header size] ++
         ASSERT (0 < size) 133) := by
  have h1 : T.PRESET_EPILOGUE ≠ T.PRESET_ID := fun e => T.id_ne_epilogue e.symm
  have h2 : T.PRESET_EPILOGUE ≠ T.PRESET_PROPERTY := fun e => T.property_ne_epilogue e.symm
  simp [ParseFractalSysEx, hmodel, hfun, hname, h1, h2]

theorem ParseFractalSysEx_id (T : SysExTypes) (mem : Memory)
    (header size : Nat) (st : ParserState)
    (hmodel : T.model mem header = T.AXE_FX_II)
    (hfun : T.function mem header = T.PRESET_ID) :
    (ParseFractalSysEx T mem header size st).1 =
      { st with preset := (ParsePresetId T mem header size st.preset).1 } := by
  simp [ParseFractalSysEx, hmodel, hfun]

theorem ParseFractalSysEx_property (T : SysExTypes) (mem : Memory)
    (header size : Nat) (st : ParserState)
    (hmodel : T.model mem header = T.AXE_FX_II)
    (hfun : T.function mem header = T.PRESET_PROPERTY) :
    (ParseFractalSysEx T mem header size st).1 =
      { st with preset :=
          (ParsePresetProperties T mem st.preset_chunk_id header size st.preset).1 } := by
  have h1 : T.PRESET_PROPERTY ≠ T.PRESET_ID := fun e => T.id_ne_property e.symm
  simp [ParseFractalSysEx, hmodel, hfun, h1]

theorem ParsePresetProperties_name (T : SysExTypes) (mem : Memory) (c : Int)
    (header size : Nat) (preset : Preset)
    (htag : T.Fractal16bit_As16bit (values T mem header 0) = 0x2078)
    (hb2 : (values T mem header 1).b2 = 0x04) :
    (ParsePresetProperties T mem c header size preset).1 =
      { preset with name := T.PresetName_ToString mem (values_addr T header 3) } := by
  simp [ParsePresetProperties, htag, hb2]

theorem ParsePresetProperties_fst (T : SysExTypes) (mem : Memory) (c : Int)
    (header size : Nat) (preset : Preset) :
    (ParsePresetProperties T mem c header size preset).1
      = if T.Fractal16bit_As16bit (values T mem header 0) = 0x2078 ∧
          (values T mem header 1).b2 = 0x04
        then { preset with name := T.PresetName_ToString mem (values_addr T header 3) }
        else preset := by
  unfold ParsePresetProperties
  simp only
  split
  · rfl
  · split
    · rfl
    · split <;> rfl

theorem ParseFractalSysEx_skip_eq (T : SysExTypes) (mem : Memory)
    (header size : Nat) (st : ParserState)
    (h : T.model mem header ≠ T.AXE_FX_II ∨
      (T.function mem header ≠ T.PRESET_ID ∧
       T.function mem header ≠ T.PRESET_PROPERTY ∧
       T.function mem header ≠ T.PRESET_EPILOGUE)) :
    (ParseFractalSysEx T mem header size st).1 = st := by
  unfold ParseFractalSysEx
  by_cases hm : T.model mem header ≠ T.AXE_FX_II
  · rw [if_pos hm]
  · rw [if_neg hm]
    rcases h with h | ⟨h1, h2, h3⟩
    · exact absurd h hm
    · rw [if_neg h1, if_neg h2, if_neg h3]

theorem ParseFractalSysEx_counter (T : SysExTypes) (mem : Memory)
    (header size : Nat) (st : ParserState) (c : Int) :
    (ParseFractalSysEx T mem header size { st with preset_chunk_id := c }).1.presets_
      = (ParseFractalSysEx T mem header size st).1.presets_ ∧
    (ParseFractalSysEx T mem header size { st with preset_chunk_id := c }).1.preset
      = (ParseFractalSysEx T mem header size st).1.preset := by
  unfold ParseFractalSysEx
  simp only
  split
  · exact ⟨rfl, rfl⟩
  · split
    · exact ⟨rfl, rfl⟩
    · split
      · refine ⟨rfl, ?_⟩
        show (ParsePresetProperties T mem c header size st.preset).1
          = (ParsePresetProperties T mem st.preset_chunk_id header size st.preset).1
        rw [ParsePresetProperties_fst, ParsePresetProperties_fst]
      · split
        · split
          · exact ⟨rfl, rfl⟩
          · exact ⟨rfl, rfl⟩
        · exact ⟨rfl, rfl⟩

theorem ParseSingleSysEx_entry_no_dispatch (T : SysExTypes) (mem : Memory)
    (sys_ex size : Nat) (st : ParserState) (c : Int) (h n : Nat) :
    Event.call_ParseFractalSysEx c h n ∉ ParseSingleSysEx_entry T mem sys_ex size st := by
  unfold ParseSingleSysEx_entry ASSERT
  intro hmem
  split at hmem <;> split at hmem <;> simp at hmem

theorem gate_rejects_manufacturer (T : SysExTypes) (mem : Memory)
    (sys_ex size : Nat) (st : ParserState)
    (h : size < T.kFractalMidiId.length + T.kSysExTerminationByteCount ∨
      manufacturer_bytes T mem sys_ex ≠ T.kFractalMidiId) :
    ParseSingleSysEx T mem sys_ex size st =
      (st, ParseSingleSysEx_entry T mem sys_ex size st ++ [Event.not_fractal]) := by
  unfold ParseSingleSysEx
  rw [if_pos h]
  rfl

theorem gate_rejects_checksum (T : SysExTypes) (mem : Memory)
    (sys_ex size : Nat) (st : ParserState)
    (h : ¬ (size < T.kFractalMidiId.length + T.kSysExTerminationByteCount ∨
      manufacturer_bytes T mem sys_ex ≠ T.kFractalMidiId))
    (hsum : T.VerifyChecksum mem sys_ex size = false) :
    ParseSingleSysEx T mem sys_ex size st =
      (st, ParseSingleSysEx_entry T mem sys_ex size st ++ [Event.invalid_checksum]) := by
  unfold ParseSingleSysEx
  rw [if_neg h, if_pos hsum]
  rfl

theorem gate_dispatches (T : SysExTypes) (mem : Memory)
    (sys_ex size : Nat) (st : ParserState)
    (h : ¬ (size < T.kFractalMidiId.length + T.kSysExTerminationByteCount ∨
      manufacturer_bytes T mem sys_ex ≠ T.kFractalMidiId))
    (hsum : T.VerifyChecksum mem sys_ex size = true) :
    ParseSingleSysEx T mem sys_ex size st =
      ((ParseFractalSysEx T mem sys_ex size st).1,
       ParseSingleSysEx_entry T mem sys_ex size st ++
         (ParseFractalSysEx T mem sys_ex size st).2) := by
  have hs : ¬ T.VerifyChecksum mem sys_ex size = false := by simp [hsum]
  unfold ParseSingleSysEx
  rw [if_neg h, if_neg hs]
  rfl

theorem ParseSingleSysEx_valid (T : SysExTypes) (mem : Memory)
    (sys_ex size f : Nat) (st : ParserState)
    (h : is_axefx2_message T mem sys_ex size f) :
    ParseSingleSysEx T mem sys_ex size st =
      ((ParseFractalSysEx T mem sys_ex size st).1,
       ParseSingleSysEx_entry T mem sys_ex size st ++
         (ParseFractalSysEx T mem sys_ex size st).2) := by
  obtain ⟨_, hsize, hid, hsum, _, _⟩ := h
  apply gate_dispatches T mem sys_ex size st _ hsum
  intro hor
  rcases hor with h1 | h1
  · omega
  · exact h1 hid

theorem ParseSingleSysEx_skip_eq (T : SysExTypes) (mem : Memory)
    (sys_ex size : Nat) (st : ParserState)
    (h : T.model mem sys_ex ≠ T.AXE_FX_II ∨
      (T.function mem sys_ex ≠ T.PRESET_ID ∧
       T.function mem sys_ex ≠ T.PRESET_PROPERTY ∧
       T.function mem sys_ex ≠ T.PRESET_EPILOGUE)) :
    (ParseSingleSysEx T mem sys_ex size st).1 = st := by
  by_cases hf : size < T.kFractalMidiId.length + T.kSysExTerminationByteCount ∨
      manufacturer_bytes T mem sys_ex ≠ T.kFractalMidiId
  · rw [gate_rejects_manufacturer T mem sys_ex size st hf]
  · cases hsum : T.VerifyChecksum mem sys_ex size
    · rw [gate_rejects_checksum T mem sys_ex size st hf hsum]
    · rw [gate_dispatches T mem sys_ex size st hf hsum]
      exact ParseFractalSysEx_skip_eq T mem sys_ex size st h

theorem ParseSingleSysEx_counter (T : SysExTypes) (mem : Memory)
    (sys_ex size : Nat) (st : ParserState) (c : Int) :
    (ParseSingleSysEx T mem sys_ex size { st with preset_chunk_id := c }).1.presets_
      = (ParseSingleSysEx T mem sys_ex size st).1.presets_ ∧
    (ParseSingleSysEx T mem sys_ex size { st with preset_chunk_id := c }).1.preset
      = (ParseSingleSysEx T mem sys_ex size st).1.preset := by
  by_cases hf : size < T.kFractalMidiId.length + T.kSysExTerminationByteCount ∨
      manufacturer_bytes T mem sys_ex ≠ T.kFractalMidiId
  · rw [gate_rejects_manufacturer T mem sys_ex size _ hf,
      gate_rejects_manufacturer T mem sys_ex size st hf]
    exact ⟨rfl, rfl⟩
  · cases hsum : T.VerifyChecksum mem sys_ex size
    · rw [gate_rejects_checksum T mem sys_ex size _ hf hsum,
        gate_rejects_checksum T mem sys_ex size st hf hsum]
      exact ⟨rfl, rfl⟩
    · rw [gate_dispatches T mem sys_ex size _ hf hsum,
        gate_dispatches T mem sys_ex size st hf hsum]
      exact ParseFractalSysEx_counter T mem sys_ex size st c

/-! ## Lemmas: the frame scanner -/

theorem scan_start (T : SysExTypes) (mem : Memory) (n pos : Nat) (s : ScanState)
    (hstart : mem pos = T.kSysExStart) :
    scan T mem (n + 1) pos s =
      scan T mem n (pos + 1)
        { s with sys_ex_begins := some pos,
                 log := s.log ++ ASSERT (s.sys_ex_begins = none) 196 } := by
  rw [scan, if_pos hstart]

theorem scan_plain (T : SysExTypes) (mem : Memory) (n pos : Nat) (s : ScanState)
    (h1 : mem pos ≠ T.kSysExStart) (h2 : mem pos ≠ T.kSysExEnd) :
    scan T mem (n + 1) pos s = scan T mem n (pos + 1) s := by
  rw [scan, if_neg h1, if_neg h2]

theorem scan_plain_run (T : SysExTypes) (mem : Memory) (n : Nat) :
    ∀ (k pos : Nat) (s : ScanState),
      (∀ i, i < k → mem (pos + i) ≠ T.kSysExStart ∧ mem (pos + i) ≠ T.kSysExEnd) →
      scan T mem (k + n) pos s = scan T mem n (pos + k) s := by
  intro k
  induction k with
  | zero => intro pos s _; simp
  | succ k ih =>
    intro pos s h
    have h0 := h 0 (Nat.succ_pos k)
    have e : k + 1 + n = (k + n) + 1 := by omega
    rw [e, scan_plain T mem (k + n) pos s h0.1 h0.2, ih (pos + 1) s]
    · have e2 : pos + 1 + k = pos + (k + 1) := by omega
      rw [e2]
    · intro i hi
      have := h (i + 1) (by omega)
      have e3 : pos + 1 + i = pos + (i + 1) := by omega
      rw [e3]
      exact this

theorem scan_end (T : SysExTypes) (mem : Memory) (n pos b : Nat) (s : ScanState)
    (hend : mem pos = T.kSysExEnd) (hne : T.kSysExEnd ≠ T.kSysExStart)
    (hb : s.sys_ex_begins = some b) :
    scan T mem (n + 1) pos s =
      scan T mem n (pos + 1)
        { sys_ex_begins := none,
          st := { (ParseSingleSysEx T mem b (pos - b + 1) s.st).1 with
                  preset_chunk_id :=
                    (ParseSingleSysEx T mem b (pos - b + 1) s.st).1.preset_chunk_id + 1 },
          log := s.log ++ (ParseSingleSysEx T mem b (pos - b + 1) s.st).2 } := by
  have h1 : ¬ mem pos = T.kSysExStart := by rw [hend]; exact hne
  rw [scan, if_neg h1, if_pos hend]
  simp only [hb]

theorem scan_frame (T : SysExTypes) (mem : Memory) (n sys_ex size : Nat)
    (s : ScanState) (hne : T.kSysExEnd ≠ T.kSysExStart)
    (hf : is_frame T mem sys_ex size) (hs : s.sys_ex_begins = none) :
    scan T mem (size + n) sys_ex s =
      scan T mem n (sys_ex + size) (after_frame T mem sys_ex size s) := by
  obtain ⟨h2, hstart, hend, hplain⟩ := hf
  obtain ⟨k, rfl⟩ : ∃ k, size = k + 2 := ⟨size - 2, by omega⟩
  have e1 : k + 2 + n = (k + (n + 1)) + 1 := by omega
  rw [e1, scan_start T mem _ sys_ex s hstart,
    scan_plain_run T mem (n + 1) k (sys_ex + 1) _ (by
      intro i hi
      exact hplain i (by omega))]
  have e2 : sys_ex + (k + 2) - 1 = sys_ex + 1 + k := by omega
  rw [e2] at hend
  rw [scan_end T mem n (sys_ex + 1 + k) sys_ex _ hend hne rfl]
  have e3 : sys_ex + 1 + k - sys_ex + 1 = k + 2 := by omega
  have e4 : sys_ex + 1 + k + 1 = sys_ex + (k + 2) := by omega
  simp only [e3, e4, hs, ASSERT, if_true, List.append_nil]
  rfl

theorem scan_data_congr (T : SysExTypes) (mem : Memory) :
    ∀ (n pos : Nat) (s t : ScanState),
      s.sys_ex_begins = t.sys_ex_begins → s.st.presets_ = t.st.presets_ →
      s.st.preset = t.st.preset →
      (scan T mem n pos s).data = (scan T mem n pos t).data := by
  intro n
  induction n with
  | zero =>
    intro pos s t h1 h2 h3
    simp [scan, Outcome.data, h1, h2, h3]
  | succ n ih =>
    intro pos s t h1 h2 h3
    by_cases hstart : mem pos = T.kSysExStart
    · rw [scan_start T mem n pos s hstart, scan_start T mem n pos t hstart]
      exact ih _ _ _ rfl h2 h3
    · by_cases hend : mem pos = T.kSysExEnd
      · have hne : T.kSysExEnd ≠ T.kSysExStart := fun e => hstart (hend.trans e)
        cases hb : s.sys_ex_begins with
        | none =>
          have hb2 : t.sys_ex_begins = none := by rw [← h1, hb]
          rw [scan, if_neg hstart, if_pos hend, scan, if_neg hstart, if_pos hend]
          simp only [hb, hb2, Outcome.data, h2, h3]
        | some b =>
          have hb2 : t.sys_ex_begins = some b := by rw [← h1, hb]
          rw [scan_end T mem n pos b s hend hne hb, scan_end T mem n pos b t hend hne hb2]
          have ht : t.st = { s.st with preset_chunk_id := t.st.preset_chunk_id } := by
            cases hs : s.st
            cases ht : t.st
            simp_all
          have hc := ParseSingleSysEx_counter T mem b (pos - b + 1) s.st
            t.st.preset_chunk_id
          rw [← ht] at hc
          exact ih _ _ _ rfl hc.1.symm hc.2.symm
      · rw [scan_plain T mem n pos s hstart hend, scan_plain T mem n pos t hstart hend]
        exact ih _ _ _ h1 h2 h3

/-! ## Lemmas: the replay of the output -/

theorem expected_id_append (l1 : List Event) :
    ∀ (c : Int) (l2 : List Event),
      expected_id c (l1 ++ l2) = (expected_id c l1).bind fun d => expected_id d l2 := by
  induction l1 with
  | nil => intro c l2; simp [expected_id]
  | cons e es ih =>
    intro c l2
    cases e with
    | id_assigned v => simpa [expected_id] using ih v l2
    | inserted k p =>
      simp only [List.cons_append, expected_id]
      split
      · exact ih _ _
      · simp
    | _ => simpa [expected_id] using ih c l2

theorem expected_id_neutral (l : List Event) (c : Int)
    (h : ∀ e ∈ l, e.neutral = true) : expected_id c l = some c := by
  induction l with
  | nil => simp [expected_id]
  | cons e es ih =>
    have he := h e (List.mem_cons_self e es)
    have ih2 := ih (fun x hx => h x (List.mem_cons_of_mem e hx))
    cases e <;> simp_all [expected_id, Event.neutral]

theorem ASSERT_neutral (c : Prop) [Decidable c] (line : Nat) :
    ∀ e ∈ ASSERT c line, e.neutral = true := by
  intro e he
  unfold ASSERT at he
  split at he
  · simp at he
  · simp at he
    rw [he]
    rfl

theorem neutral_append (l1 l2 : List Event) (h1 : ∀ e ∈ l1, e.neutral = true)
    (h2 : ∀ e ∈ l2, e.neutral = true) : ∀ e ∈ l1 ++ l2, e.neutral = true := by
  intro e he
  rcases List.mem_append.mp he with h | h
  · exact h1 e h
  · exact h2 e h

theorem ParseSingleSysEx_entry_neutral (T : SysExTypes) (mem : Memory)
    (sys_ex size : Nat) (st : ParserState) :
    ∀ e ∈ ParseSingleSysEx_entry T mem sys_ex size st, e.neutral = true := by
  unfold ParseSingleSysEx_entry
  apply neutral_append
  · apply neutral_append
    · intro e he
      simp at he
      rw [he]
      rfl
    · exact ASSERT_neutral _ _
  · exact ASSERT_neutral _ _

theorem enumerate_blocks_neutral (T : SysExTypes) (mem : Memory) (header : Nat)
    (vc : Int) : ∀ e ∈ enumerate_blocks T mem header vc, e.neutral = true := by
  intro e he
  unfold enumerate_blocks at he
  rw [List.mem_filterMap] at he
  obtain ⟨i, _, hi⟩ := he
  simp only at hi
  split at hi
  · simp at hi
    rw [← hi]
    rfl
  · simp at hi

theorem scan_amps_neutral (T : SysExTypes) (mem : Memory) (header : Nat)
    (vc : Int) (preset : Preset) :
    ∀ e ∈ scan_amps T mem header vc preset, e.neutral = true := by
  intro e he
  unfold scan_amps at he
  rw [List.mem_filterMap] at he
  obtain ⟨i, _, hi⟩ := he
  simp only at hi
  split at hi
  · simp at hi
    rw [← hi]
    rfl
  · split at hi
    · simp at hi
      rw [← hi]
      rfl
    · simp at hi

theorem ParsePresetProperties_neutral (T : SysExTypes) (mem : Memory) (c : Int)
    (header size : Nat) (preset : Preset) :
    (ParsePresetProperties T mem c header size preset).1.id = preset.id ∧
    ∀ e ∈ (ParsePresetProperties T mem c header size preset).2, e.neutral = true := by
  have hev : ∀ e ∈ ASSERT (T.function mem header = T.PRESET_PROPERTY) 37 ++
      ASSERT (T.Fractal16bit_As16bit (values T mem header 0) = 0x2078) 43,
      e.neutral = true :=
    neutral_append _ _ (ASSERT_neutral _ _) (ASSERT_neutral _ _)
  have hvc : ∀ v w, ∀ e ∈ [Event.printf_value_count v w], e.neutral = true := by
    intro v w e he
    simp at he
    rw [he]
    rfl
  unfold ParsePresetProperties
  simp only
  split
  · exact ⟨rfl, neutral_append _ _ hev (ASSERT_neutral _ _)⟩
  · split
    · exact ⟨rfl, neutral_append _ _ (neutral_append _ _ hev (hvc _ _))
        (enumerate_blocks_neutral T mem header _)⟩
    · split
      · exact ⟨rfl, neutral_append _ _ (neutral_append _ _ hev (hvc _ _))
          (scan_amps_neutral T mem header _ preset)⟩
      · exact ⟨rfl, hev⟩

theorem ParsePresetId_expected (T : SysExTypes) (mem : Memory) (header size : Nat)
    (preset : Preset) (c : Int) :
    expected_id c (ParsePresetId T mem header size preset).2
      = some (ParsePresetId T mem header size preset).1.id := by
  unfold ParsePresetId
  simp only [expected_id_append, expected_id_neutral _ _ (ASSERT_neutral _ _),
    Option.some_bind, expected_id]

theorem ParseFractalSysEx_expected (T : SysExTypes) (mem : Memory)
    (header size : Nat) (st : ParserState) :
    expected_id st.preset.id (ParseFractalSysEx T mem header size st).2
      = some (ParseFractalSysEx T mem header size st).1.preset.id := by
  have hev : ∀ e ∈ [Event.call_ParseFractalSysEx st.preset_chunk_id header size] ++
      ASSERT (0 < size) 133, e.neutral = true := by
    apply neutral_append
    · intro e he
      simp at he
      rw [he]
      rfl
    · exact ASSERT_neutral _ _
  unfold ParseFractalSysEx
  simp only
  split
  · rw [expected_id_append, expected_id_neutral _ _ hev]
    rfl
  · split
    · rw [expected_id_append, expected_id_neutral _ _ hev]
      exact ParsePresetId_expected T mem header size st.preset st.preset.id
    · split
      · rw [expected_id_append, expected_id_neutral _ _ hev]
        have h := ParsePresetProperties_neutral T mem st.preset_chunk_id header size
          st.preset
        simp only [Option.some_bind]
        rw [expected_id_neutral _ _ h.2, h.1]
      · split
        · split
          · rw [expected_id_append, expected_id_neutral _ _ hev]
            simp [expected_id]
          · exact expected_id_neutral _ _ hev
        · rw [expected_id_append, expected_id_neutral _ _ hev]
          rfl

theorem ParseSingleSysEx_expected (T : SysExTypes) (mem : Memory)
    (sys_ex size : Nat) (st : ParserState) :
    expected_id st.preset.id (ParseSingleSysEx T mem sys_ex size st).2
      = some (ParseSingleSysEx T mem sys_ex size st).1.preset.id := by
  have hev := ParseSingleSysEx_entry_neutral T mem sys_ex size st
  by_cases hf : size < T.kFractalMidiId.length + T.kSysExTerminationByteCount ∨
      manufacturer_bytes T mem sys_ex ≠ T.kFractalMidiId
  · rw [gate_rejects_manufacturer T mem sys_ex size st hf, expected_id_append,
      expected_id_neutral _ _ hev]
    rfl
  · cases hsum : T.VerifyChecksum mem sys_ex size
    · rw [gate_rejects_checksum T mem sys_ex size st hf hsum,
        expected_id_append, expected_id_neutral _ _ hev]
      rfl
    · rw [gate_dispatches T mem sys_ex size st hf hsum,
        expected_id_append, expected_id_neutral _ _ hev]
      exact ParseFractalSysEx_expected T mem sys_ex size st

theorem scan_well_framed (T : SysExTypes) (mem : Memory) :
    ∀ (n pos : Nat) (s : ScanState),
      well_framed T mem n pos s.sys_ex_begins.isSome = true →
      expected_id (-1) s.log = some s.st.preset.id →
      ∃ r, scan T mem n pos s = Outcome.returned r ∧ r.sys_ex_begins = none ∧
        expected_id (-1) r.log = some r.st.preset.id := by
  intro n
  induction n with
  | zero =>
    intro pos s hwf hinv
    refine ⟨s, rfl, ?_, hinv⟩
    cases hb : s.sys_ex_begins with
    | none => rfl
    | some b => simp [well_framed, hb] at hwf
  | succ n ih =>
    intro pos s hwf hinv
    unfold well_framed at hwf
    by_cases hstart : mem pos = T.kSysExStart
    · rw [if_pos hstart] at hwf
      simp only [Bool.and_eq_true, Bool.not_eq_true'] at hwf
      rw [scan_start T mem n pos s hstart]
      apply ih
      · exact hwf.2
      · have hnone : s.sys_ex_begins = none := by
          cases hb : s.sys_ex_begins with
          | none => rfl
          | some b => simp [hb] at hwf
        simp [ASSERT, hnone, hinv]
    · rw [if_neg hstart] at hwf
      by_cases hend : mem pos = T.kSysExEnd
      · rw [if_pos hend] at hwf
        simp only [Bool.and_eq_true] at hwf
        obtain ⟨b, hb⟩ := Option.isSome_iff_exists.mp hwf.1
        have hne : T.kSysExEnd ≠ T.kSysExStart := by
          intro e
          exact hstart (hend.trans e)
        rw [scan_end T mem n pos b s hend hne hb]
        apply ih
        · exact hwf.2
        · show expected_id (-1) (s.log ++ (ParseSingleSysEx T mem b (pos - b + 1) s.st).2)
            = some (ParseSingleSysEx T mem b (pos - b + 1) s.st).1.preset.id
          rw [expected_id_append, hinv]
          exact ParseSingleSysEx_expected T mem b (pos - b + 1) s.st
      · rw [if_neg hend] at hwf
        rw [scan_plain T mem n pos s hstart hend]
        exact ih (pos + 1) s hwf hinv

/-! ## One preset in a buffer -/

/-- Claim C1: on a parser with an empty store, a buffer made of three valid Axe-Fx II
messages in a row (a `PRESET_ID` message whose packed number is not the edit-buffer
pair and has the magnitude `N`, a `PRESET_PROPERTY` name block whose name decodes to
the non-empty `S`, a `PRESET_EPILOGUE` message) makes `ParseSysExBuffer` return with
a store of exactly one entry, key `N` with the preset of id `N` and name `S`. -/
theorem ParseSysExBuffer_single_preset (T : SysExTypes) (mem : Memory)
    (begin_ n1 n2 n3 N : Nat) (S : String)
    (hne : T.kSysExEnd ≠ T.kSysExStart)
    (h1 : is_axefx2_message T mem begin_ n1 T.PRESET_ID)
    (hnum : ¬ ((T.preset_number mem begin_).ms = 0x7f ∧
               (T.preset_number mem begin_).ls = 0x00))
    (hN : T.SeptetPair_As16bit (T.preset_number mem begin_) = N)
    (h2 : is_axefx2_message T mem (begin_ + n1) n2 T.PRESET_PROPERTY)
    (htag : T.Fractal16bit_As16bit (values T mem (begin_ + n1) 0) = 0x2078)
    (hb2 : (values T mem (begin_ + n1) 1).b2 = 0x04)
    (hS : T.PresetName_ToString mem (values_addr T (begin_ + n1) 3) = S)
    (hS0 : S ≠ "")
    (h3 : is_axefx2_message T mem (begin_ + n1 + n2) n3 T.PRESET_EPILOGUE) :
    ∃ s, ParseSysExBuffer T mem begin_ (begin_ + n1 + n2 + n3) [] = Outcome.returned s ∧
      s.st.presets_ = [((N : Int), { id := (N : Int), name := S })] := by
  have e : begin_ + n1 + n2 + n3 - begin_ = n1 + (n2 + (n3 + 0)) := by omega
  unfold ParseSysExBuffer
  rw [e, scan_frame T mem _ begin_ n1 _ hne h1.1 rfl,
    scan_frame T mem _ (begin_ + n1) n2 _ hne h2.1 rfl,
    scan_frame T mem _ (begin_ + n1 + n2) n3 _ hne h3.1 rfl, scan]
  refine ⟨_, rfl, ?_⟩
  have hid : (ParsePresetId T mem begin_ n1 { id := -1, name := "" }).1
      = { id := (N : Int), name := "" } := by
    simp only [ParsePresetId, hnum, if_false, hN]
  simp only [after_frame, initial]
  rw [ParseSingleSysEx_valid T mem begin_ n1 _ _ h1]
  simp only [ParseFractalSysEx_id T mem begin_ n1 _ h1.2.2.2.2.1 h1.2.2.2.2.2, hid]
  rw [ParseSingleSysEx_valid T mem (begin_ + n1) n2 _ _ h2]
  simp only [ParseFractalSysEx_property T mem (begin_ + n1) n2 _ h2.2.2.2.2.1 h2.2.2.2.2.2,
    ParsePresetProperties_name T mem _ (begin_ + n1) n2 _ htag hb2, hS]
  rw [ParseSingleSysEx_valid T mem (begin_ + n1 + n2) n3 _ _ h3]
  rw [ParseFractalSysEx_epilogue_named T mem (begin_ + n1 + n2) n3 _
    h3.2.2.2.2.1 h3.2.2.2.2.2 hS0]
  simp [PresetMap.insert, PresetMap.find, PresetMap.place]

/-- Witness of `ParseSysExBuffer_single_preset`: the identity message of preset 5, the
name block "Lead" and an epilogue give the store that maps 5 to (5, "Lead"). -/
theorem ParseSysExBuffer_single_preset_witness :
    ∃ s, ParseSysExBuffer sample_types (memory_of sample_lead) 0 (0 + 12 + 112 + 8) []
        = Outcome.returned s ∧
      s.st.presets_ = [(((5 : Nat) : Int), { id := ((5 : Nat) : Int), name := "Lead" })] :=
  ParseSysExBuffer_single_preset sample_types (memory_of sample_lead) 0 12 112 8 5 "Lead"
    (by decide) (by decide) (by decide) (by decide) (by decide) (by decide) (by decide)
    (by decide) (by decide) (by decide)

/-! ## The epilogue -/

/-- Claim C2, as stated, fails: with an entry already stored under key 5, an epilogue
reached with the in-flight preset (5, "New") leaves the stored entry (5, "Old") in
place. -/
theorem epilogue_keeps_existing_entry :
    (sample_types.model (memory_of sample_epilogue) 0 = sample_types.AXE_FX_II ∧
     sample_types.function (memory_of sample_epilogue) 0 = sample_types.PRESET_EPILOGUE) ∧
    ((ParseFractalSysEx sample_types (memory_of sample_epilogue) 0 8
        { presets_ := [(5, { id := 5, name := "Old" })],
          preset := { id := 5, name := "New" },
          preset_chunk_id := 2 }).1.presets_.find 5
      = some { id := 5, name := "Old" }) ∧
    ((ParseFractalSysEx sample_types (memory_of sample_epilogue) 0 8
        { presets_ := [(5, { id := 5, name := "Old" })],
          preset := { id := 5, name := "New" },
          preset_chunk_id := 2 }).1.presets_.find 5
      ≠ some { id := 5, name := "New" }) := by
  decide

/-- Claim C2, amended: at a `PRESET_EPILOGUE` reached with a non-empty in-flight name
and in-flight id `k`, a store with no entry under `k` gets the in-flight preset under
`k`; a store that already has an entry under `k` is left exactly as it was; and what
is stored under any other key does not change. -/
theorem epilogue_inserts_when_key_free (T : SysExTypes) (mem : Memory)
    (header size : Nat) (st : ParserState)
    (hmodel : T.model mem header = T.AXE_FX_II)
    (hfun : T.function mem header = T.PRESET_EPILOGUE)
    (hname : st.preset.name ≠ "") :
    (st.presets_.find st.preset.id = none →
      (ParseFractalSysEx T mem header size st).1.presets_.find st.preset.id
        = some st.preset) ∧
    (∀ old, st.presets_.find st.preset.id = some old →
      (ParseFractalSysEx T mem header size st).1.presets_ = st.presets_) ∧
    (∀ j, j ≠ st.preset.id →
      (ParseFractalSysEx T mem header size st).1.presets_.find j
        = st.presets_.find j) := by
  rw [ParseFractalSysEx_epilogue_named T mem header size st hmodel hfun hname]
  refine ⟨?_, ?_, ?_⟩
  · intro hnone
    simp only [PresetMap.insert, hnone, Option.isSome_none]
    exact PresetMap.find_place_self st.presets_ (st.preset.id, st.preset) hnone
  · intro old hold
    simp [PresetMap.insert, hold]
  · intro j hj
    simp only [PresetMap.insert]
    split
    · rfl
    · exact PresetMap.find_place_ne st.presets_ (st.preset.id, st.preset) j hj

/-- Witness of `epilogue_inserts_when_key_free`: the in-flight preset (5, "Lead") and
a store that holds key 7 only. -/
theorem epilogue_inserts_when_key_free_witness :
    (sample_types.model (memory_of sample_epilogue) 0 = sample_types.AXE_FX_II ∧
     sample_types.function (memory_of sample_epilogue) 0 = sample_types.PRESET_EPILOGUE) ∧
    (ParseFractalSysEx sample_types (memory_of sample_epilogue) 0 8
        { presets_ := [(7, { id := 7, name := "Seven" })],
          preset := { id := 5, name := "Lead" },
          preset_chunk_id := 2 }).1.presets_.find 5
      = some { id := 5, name := "Lead" } :=
  ⟨by decide,
   (epilogue_inserts_when_key_free sample_types (memory_of sample_epilogue) 0 8
      { presets_ := [(7, { id := 7, name := "Seven" })],
        preset := { id := 5, name := "Lead" },
        preset_chunk_id := 2 } (by decide) (by decide) (by decide)).1 (by decide)⟩

/-- Claim C3 at a concrete input: after a `PRESET_EPILOGUE` reached with the in-flight
preset (5, "Lead") and chunk counter 2, the id is -1 and the counter is -1, and the
name is still "Lead", not the empty string: the statement `preset->name;` has no
effect. -/
theorem epilogue_leaves_name :
    (ParseFractalSysEx sample_types (memory_of sample_epilogue) 0 8
        { presets_ := [],
          preset := { id := 5, name := "Lead" },
          preset_chunk_id := 2 }).1
      = { presets_ := [(5, { id := 5, name := "Lead" })],
          preset := { id := -1, name := "Lead" },
          preset_chunk_id := -1 } := by
  decide

/-- Claim C4: at a `PRESET_EPILOGUE` reached with an empty in-flight name, whatever
the in-flight id, the store is left as it was and `presets_.insert` is not called;
only the chunk counter changes. -/
theorem epilogue_discards_unnamed (T : SysExTypes) (mem : Memory)
    (header size : Nat) (st : ParserState)
    (hmodel : T.model mem header = T.AXE_FX_II)
    (hfun : T.function mem header = T.PRESET_EPILOGUE)
    (hname : st.preset.name = "") :
    (ParseFractalSysEx T mem header size st).1.presets_ = st.presets_ ∧
    (ParseFractalSysEx T mem header size st).1.preset = st.preset ∧
    (∀ k p, Event.inserted k p ∉ (ParseFractalSysEx T mem header size st).2) := by
  rw [ParseFractalSysEx_epilogue_unnamed T mem header size st hmodel hfun hname]
  refine ⟨rfl, rfl, ?_⟩
  intro k p hmem
  by_cases hs : 0 < size <;> simp [ASSERT, hs] at hmem

/-- Witness of `epilogue_discards_unnamed`: an unnamed in-flight preset with id 9 and
a store that holds key 7. -/
theorem epilogue_discards_unnamed_witness :
    (ParseFractalSysEx sample_types (memory_of sample_epilogue) 0 8
        { presets_ := [(7, { id := 7, name := "Seven" })],
          preset := { id := 9, name := "" },
          preset_chunk_id := 2 }).1.presets_
      = [(7, { id := 7, name := "Seven" })] :=
  (epilogue_discards_unnamed sample_types (memory_of sample_epilogue) 0 8
      { presets_ := [(7, { id := 7, name := "Seven" })],
        preset := { id := 9, name := "" },
        preset_chunk_id := 2 } (by decide) (by decide) (by decide)).1

/-! ## The id of a stored preset -/

/-- Claim C6: when the packed preset number is the edit-buffer pair (`ms = 0x7f`,
`ls = 0x00`), `ParsePresetId` sets the in-flight id to -1 and keeps the name, for
every content of the rest of the message (the reserved field included), every size
and every prior in-flight preset. -/
theorem ParsePresetId_edit_buffer (T : SysExTypes) (mem : Memory) (header size : Nat)
    (preset : Preset)
    (hms : (T.preset_number mem header).ms = 0x7f)
    (hls : (T.preset_number mem header).ls = 0x00) :
    (ParsePresetId T mem header size preset).1 = { id := -1, name := preset.name } := by
  simp [ParsePresetId, hms, hls]

/-- Witness of `ParsePresetId_edit_buffer`: a `PRESET_ID` message with the pair
`7f 00`, read over an in-flight preset with id 12. -/
theorem ParsePresetId_edit_buffer_witness :
    ((sample_types.preset_number (memory_of (sample_id 0x7f 0x00)) 0).ms = 0x7f ∧
     (sample_types.preset_number (memory_of (sample_id 0x7f 0x00)) 0).ls = 0x00) ∧
    (ParsePresetId sample_types (memory_of (sample_id 0x7f 0x00)) 0 12
        { id := 12, name := "Crunch" }).1 = { id := -1, name := "Crunch" } :=
  ⟨by decide,
   ParsePresetId_edit_buffer sample_types (memory_of (sample_id 0x7f 0x00)) 0 12
     { id := 12, name := "Crunch" } (by decide) (by decide)⟩

/-- Claim C7: when the packed preset number is not the edit-buffer pair,
`ParsePresetId` sets the in-flight id to `preset_number.As16bit()` and keeps the
name; the id is then not -1, it is 0 when the magnitude is 0 and `0x7FFE` when the
magnitude is `0x7FFE`. -/
theorem ParsePresetId_number (T : SysExTypes) (mem : Memory) (header size : Nat)
    (preset : Preset)
    (h : ¬ ((T.preset_number mem header).ms = 0x7f ∧
            (T.preset_number mem header).ls = 0x00)) :
    (ParsePresetId T mem header size preset).1
      = { id := (T.SeptetPair_As16bit (T.preset_number mem header) : Int),
          name := preset.name } ∧
    (ParsePresetId T mem header size preset).1.id ≠ -1 ∧
    (T.SeptetPair_As16bit (T.preset_number mem header) = 0 →
      (ParsePresetId T mem header size preset).1.id = 0) ∧
    (T.SeptetPair_As16bit (T.preset_number mem header) = 0x7FFE →
      (ParsePresetId T mem header size preset).1.id = 0x7FFE) := by
  have e : (ParsePresetId T mem header size preset).1
      = { id := (T.SeptetPair_As16bit (T.preset_number mem header) : Int),
          name := preset.name } := by
    simp only [ParsePresetId, h, if_false]
  rw [e]
  refine ⟨rfl, ?_, ?_, ?_⟩
  · show (T.SeptetPair_As16bit (T.preset_number mem header) : Int) ≠ -1
    omega
  · intro h0
    show (T.SeptetPair_As16bit (T.preset_number mem header) : Int) = 0
    omega
  · intro h1
    show (T.SeptetPair_As16bit (T.preset_number mem header) : Int) = 0x7FFE
    omega

/-- Witness of `ParsePresetId_number`: the pair `00 00` decodes to id 0. -/
theorem ParsePresetId_number_witness :
    ¬ ((sample_types.preset_number (memory_of (sample_id 0x00 0x00)) 0).ms = 0x7f ∧
       (sample_types.preset_number (memory_of (sample_id 0x00 0x00)) 0).ls = 0x00) ∧
    (ParsePresetId sample_types (memory_of (sample_id 0x00 0x00)) 0 12
        { id := 12, name := "Crunch" }).1 = { id := 0, name := "Crunch" } :=
  ⟨by decide,
   (ParsePresetId_number sample_types (memory_of (sample_id 0x00 0x00)) 0 12
     { id := 12, name := "Crunch" } (by decide)).1⟩

/-! ## The gate in front of the dispatcher -/

/-- Claim C8: for a message with the Fractal manufacturer id and a length of at least
that id plus the termination bytes, on which `VerifyChecksum` returns false,
`ParseSingleSysEx` reports the checksum and returns: `ParseFractalSysEx` is not
called, and the in-flight preset, the chunk counter and the store are the ones it was
given. -/
theorem ParseSingleSysEx_invalid_checksum (T : SysExTypes) (mem : Memory)
    (sys_ex size : Nat) (st : ParserState)
    (hsize : T.kFractalMidiId.length + T.kSysExTerminationByteCount ≤ size)
    (hid : manufacturer_bytes T mem sys_ex = T.kFractalMidiId)
    (hsum : T.VerifyChecksum mem sys_ex size = false) :
    (ParseSingleSysEx T mem sys_ex size st).1 = st ∧
    (∀ c h n, Event.call_ParseFractalSysEx c h n ∉
      (ParseSingleSysEx T mem sys_ex size st).2) ∧
    Event.invalid_checksum ∈ (ParseSingleSysEx T mem sys_ex size st).2 := by
  have h : ¬ (size < T.kFractalMidiId.length + T.kSysExTerminationByteCount ∨
      manufacturer_bytes T mem sys_ex ≠ T.kFractalMidiId) := by
    intro hor
    rcases hor with h1 | h2
    · omega
    · exact h2 hid
  rw [gate_rejects_checksum T mem sys_ex size st h hsum]
  refine ⟨rfl, ?_, ?_⟩
  · intro c hd n hmem
    rcases List.mem_append.mp hmem with h1 | h1
    · exact ParseSingleSysEx_entry_no_dispatch T mem sys_ex size st c hd n h1
    · simp at h1
  · simp

/-- Witness of `ParseSingleSysEx_invalid_checksum`: a `PRESET_ID` message with a wrong
checksum byte does not touch the in-flight preset (1, "Clean"). -/
theorem ParseSingleSysEx_invalid_checksum_witness :
    (sample_types.VerifyChecksum (memory_of (sample_id 0x00 0x05)) 0 12 = true ∧
     sample_types.VerifyChecksum (memory_of sample_corrupt_id) 0 12 = false) ∧
    (ParseSingleSysEx sample_types (memory_of sample_corrupt_id) 0 12
        { presets_ := [], preset := { id := 1, name := "Clean" },
          preset_chunk_id := 0 }).1
      = { presets_ := [], preset := { id := 1, name := "Clean" },
          preset_chunk_id := 0 } :=
  ⟨by decide,
   (ParseSingleSysEx_invalid_checksum sample_types (memory_of sample_corrupt_id) 0 12
      { presets_ := [], preset := { id := 1, name := "Clean" }, preset_chunk_id := 0 }
      (by decide) (by decide) (by decide)).1⟩

/-- Claim C9, as stated, fails: a framed message of six bytes, shorter than the
`FractalSysExHeader` plus the termination bytes, with the Fractal manufacturer id and
a valid checksum, is handed to `ParseFractalSysEx`, which reads its model field. -/
theorem ParseSingleSysEx_dispatches_short_message :
    (memory_of sample_short 0 = sample_types.kSysExStart ∧
     memory_of sample_short 5 = sample_types.kSysExEnd ∧
     sample_short.length <
       sample_types.sizeof_FractalSysExHeader + sample_types.kSysExTerminationByteCount) ∧
    ParseSingleSysEx sample_types (memory_of sample_short) 0 6
        { presets_ := [], preset := { id := -1, name := "" }, preset_chunk_id := 0 }
      = ({ presets_ := [], preset := { id := -1, name := "" }, preset_chunk_id := 0 },
         [Event.call_ParseSingleSysEx 0 0 6, Event.call_ParseFractalSysEx 0 0 6,
          Event.not_axefx2]) := by
  decide

/-- Claim C9, amended: for a message whose manufacturer bytes differ from
`kFractalMidiId`, and for a message shorter than `sizeof(kFractalMidiId)` plus
`kSysExTerminationByteCount`, `ParseSingleSysEx` reports "Not a Fractal sysex." and
returns: `ParseFractalSysEx`, the only reader of the model and function fields, is not
called, and the in-flight preset, the chunk counter and the store are the ones it was
given. -/
theorem ParseSingleSysEx_not_fractal (T : SysExTypes) (mem : Memory)
    (sys_ex size : Nat) (st : ParserState)
    (h : manufacturer_bytes T mem sys_ex ≠ T.kFractalMidiId ∨
      size < T.kFractalMidiId.length + T.kSysExTerminationByteCount) :
    (ParseSingleSysEx T mem sys_ex size st).1 = st ∧
    (∀ c h n, Event.call_ParseFractalSysEx c h n ∉
      (ParseSingleSysEx T mem sys_ex size st).2) ∧
    Event.not_fractal ∈ (ParseSingleSysEx T mem sys_ex size st).2 := by
  rw [gate_rejects_manufacturer T mem sys_ex size st h.symm]
  refine ⟨rfl, ?_, ?_⟩
  · intro c hd n hmem
    rcases List.mem_append.mp hmem with h1 | h1
    · exact ParseSingleSysEx_entry_no_dispatch T mem sys_ex size st c hd n h1
    · simp at h1
  · simp

/-- Witness of `ParseSingleSysEx_not_fractal`: an epilogue lookalike of another
manufacturer does not store the in-flight preset (5, "Lead"). -/
theorem ParseSingleSysEx_not_fractal_witness :
    (manufacturer_bytes sample_types (memory_of sample_foreign) 0
        ≠ sample_types.kFractalMidiId ∧
     sample_types.VerifyChecksum (memory_of sample_foreign) 0 8 = true) ∧
    (ParseSingleSysEx sample_types (memory_of sample_foreign) 0 8
        { presets_ := [], preset := { id := 5, name := "Lead" },
          preset_chunk_id := 2 }).1
      = { presets_ := [], preset := { id := 5, name := "Lead" },
          preset_chunk_id := 2 } :=
  ⟨by decide,
   (ParseSingleSysEx_not_fractal sample_types (memory_of sample_foreign) 0 8
      { presets_ := [], preset := { id := 5, name := "Lead" }, preset_chunk_id := 2 }
      (Or.inl (by decide))).1⟩

/-! ## Messages the dispatcher does not handle -/

/-- Claim C10: when the model of a message is not `AXE_FX_II`, or its function code is
none of `PRESET_ID`, `PRESET_PROPERTY` and `PRESET_EPILOGUE`, `ParseFractalSysEx`
returns the in-flight preset, the chunk counter and the store it was given, assigns no
id and inserts nothing. When the scanner reaches the end marker of such a message it
goes on with the next byte from that same state, the counter moved on by the
scanner's own increment; and what the rest of the scan leaves behind (the store, the
in-flight preset, the open frame, whether it returns) is what it would leave behind
had the frame been closed without any message being handled. -/
theorem ParseFractalSysEx_skips (T : SysExTypes) (mem : Memory)
    (n pos b : Nat) (s : ScanState)
    (h : T.model mem b ≠ T.AXE_FX_II ∨
      (T.function mem b ≠ T.PRESET_ID ∧
       T.function mem b ≠ T.PRESET_PROPERTY ∧
       T.function mem b ≠ T.PRESET_EPILOGUE))
    (hend : mem pos = T.kSysExEnd) (hne : T.kSysExEnd ≠ T.kSysExStart)
    (hb : s.sys_ex_begins = some b) :
    (∀ size st, (ParseFractalSysEx T mem b size st).1 = st) ∧
    (∀ c k p, Event.id_assigned c ∉ (ParseFractalSysEx T mem b (pos - b + 1) s.st).2 ∧
      Event.inserted k p ∉ (ParseFractalSysEx T mem b (pos - b + 1) s.st).2) ∧
    scan T mem (n + 1) pos s =
      scan T mem n (pos + 1)
        { sys_ex_begins := none,
          st := { s.st with preset_chunk_id := s.st.preset_chunk_id + 1 },
          log := s.log ++ (ParseSingleSysEx T mem b (pos - b + 1) s.st).2 } ∧
    (scan T mem (n + 1) pos s).data =
      (scan T mem n (pos + 1) { s with sys_ex_begins := none }).data := by
  have hscan : scan T mem (n + 1) pos s =
      scan T mem n (pos + 1)
        { sys_ex_begins := none,
          st := { s.st with preset_chunk_id := s.st.preset_chunk_id + 1 },
          log := s.log ++ (ParseSingleSysEx T mem b (pos - b + 1) s.st).2 } := by
    rw [scan_end T mem n pos b s hend hne hb,
      ParseSingleSysEx_skip_eq T mem b (pos - b + 1) s.st h]
  refine ⟨fun size st => ParseFractalSysEx_skip_eq T mem b size st h, ?_, hscan, ?_⟩
  · intro c k p
    unfold ParseFractalSysEx ASSERT
    by_cases hm : T.model mem b ≠ T.AXE_FX_II
    · rw [if_pos hm]
      constructor <;> intro hmem <;> split at hmem <;> simp at hmem
    · rcases h with h | ⟨h1, h2, h3⟩
      · exact absurd h hm
      · rw [if_neg hm, if_neg h1, if_neg h2, if_neg h3]
        constructor <;> intro hmem <;> split at hmem <;> simp at hmem
  · rw [hscan]
    exact scan_data_congr T mem n (pos + 1) _ _ rfl rfl rfl

/-- Witness of `ParseFractalSysEx_skips`: the scanner stands on the end marker of a
message for another model, with the in-flight preset (5, "Lead"). -/
theorem ParseFractalSysEx_skips_witness :
    (sample_types.model (memory_of sample_other_model) 0 ≠ sample_types.AXE_FX_II ∧
     sample_types.VerifyChecksum (memory_of sample_other_model) 0 8 = true) ∧
    scan sample_types (memory_of sample_other_model) 1 7
        { sys_ex_begins := some 0,
          st := { presets_ := [], preset := { id := 5, name := "Lead" },
                  preset_chunk_id := 2 },
          log := [] }
      = Outcome.returned
        { sys_ex_begins := none,
          st := { presets_ := [], preset := { id := 5, name := "Lead" },
                  preset_chunk_id := 3 },
          log := [Event.call_ParseSingleSysEx 2 0 8, Event.call_ParseFractalSysEx 2 0 8,
                  Event.not_axefx2] } :=
  ⟨by decide,
   ((ParseFractalSysEx_skips sample_types (memory_of sample_other_model) 0 7 0
      { sys_ex_begins := some 0,
        st := { presets_ := [], preset := { id := 5, name := "Lead" },
                preset_chunk_id := 2 },
        log := [] } (Or.inl (by decide)) (by decide) (by decide) rfl).2.2.1).trans
     (by decide)⟩

/-! ## The property decoder -/

/-- Claim C11 at a concrete input: a `PRESET_PROPERTY` message whose first packed value
is `0x20F8` instead of `0x2078`, handled with the chunk counter at 2. The in-flight
preset (5, "Lead") is unchanged and the name block is not applied, but after the
report of line 43 the block enumeration runs over the chunk's values: it prints the
value count and one "block" line for each of `values[0]`, `values[1]`, `values[2]`. -/
theorem ParsePresetProperties_bad_tag_enumerates :
    (is_axefx2_message sample_types (memory_of sample_bad_tag) 0 13
        sample_types.PRESET_PROPERTY ∧
     sample_types.Fractal16bit_As16bit (values sample_types (memory_of sample_bad_tag) 0 0)
        ≠ 0x2078) ∧
    ParsePresetProperties sample_types (memory_of sample_bad_tag) 2 0 13
        { id := 5, name := "Lead" }
      = ({ id := 5, name := "Lead" },
         [Event.assert_failed 43, Event.printf_value_count 2 5,
          Event.printf_block 0 8440, Event.printf_block 1 5,
          Event.printf_block 2 15290]) := by
  decide

/-- Claim C12: for a message whose first packed value is `0x2078` and whose second
packed value has `b2 = 0x04`, whatever the chunk counter, the size and the prior
name, `ParsePresetProperties` sets the in-flight name to `PresetName::ToString` of the
`PresetName` at `&values[3]` and keeps the id; and `ParseFractalSysEx`, handling such
a `PRESET_PROPERTY` message, changes nothing else: the store and the chunk counter
are the ones it was given. -/
theorem ParsePresetProperties_name_block (T : SysExTypes) (mem : Memory) (c : Int)
    (header size : Nat) (preset : Preset)
    (htag : T.Fractal16bit_As16bit (values T mem header 0) = 0x2078)
    (hb2 : (values T mem header 1).b2 = 0x04) :
    (ParsePresetProperties T mem c header size preset).1
      = { id := preset.id,
          name := T.PresetName_ToString mem
            (header + T.offsetof_function_id + 3 * sizeof_Fractal16bit) } ∧
    ∀ st : ParserState, T.model mem header = T.AXE_FX_II →
      T.function mem header = T.PRESET_PROPERTY →
      (ParseFractalSysEx T mem header size st).1
        = { presets_ := st.presets_,
            preset := { id := st.preset.id,
                        name := T.PresetName_ToString mem
                          (header + T.offsetof_function_id + 3 * sizeof_Fractal16bit) },
            preset_chunk_id := st.preset_chunk_id } := by
  constructor
  · rw [ParsePresetProperties_name T mem c header size preset htag hb2]
    rfl
  · intro st hmodel hfun
    rw [ParseFractalSysEx_property T mem header size st hmodel hfun,
      ParsePresetProperties_name T mem _ header size st.preset htag hb2]
    rfl

/-- Witness of `ParsePresetProperties_name_block`: the name block "Lead" read with the
chunk counter at 2 over the in-flight preset (5, "Old name"). -/
theorem ParsePresetProperties_name_block_witness :
    (sample_types.Fractal16bit_As16bit
        (values sample_types (memory_of (sample_name [76, 101, 97, 100])) 0 0) = 0x2078 ∧
     (values sample_types (memory_of (sample_name [76, 101, 97, 100])) 0 1).b2 = 0x04) ∧
    (ParsePresetProperties sample_types (memory_of (sample_name [76, 101, 97, 100])) 2 0 112
        { id := 5, name := "Old name" }).1 = { id := 5, name := "Lead" } :=
  ⟨by decide,
   (ParsePresetProperties_name_block sample_types
      (memory_of (sample_name [76, 101, 97, 100])) 2 0 112
      { id := 5, name := "Old name" } (by decide) (by decide)).1⟩

/-! ## The slices handed to the gate -/

theorem calls_append (l1 l2 : List Event) : calls (l1 ++ l2) = calls l1 ++ calls l2 := by
  induction l1 with
  | nil => rfl
  | cons e es ih => cases e <;> simp [calls, ih]

theorem calls_none (l : List Event) (h : ∀ e ∈ l, e.is_call_single = false) :
    calls l = [] := by
  induction l with
  | nil => rfl
  | cons e es ih =>
    have he := h e (List.mem_cons_self e es)
    have ih2 := ih (fun x hx => h x (List.mem_cons_of_mem e hx))
    cases e <;> simp_all [calls, Event.is_call_single]

theorem ASSERT_no_call (c : Prop) [Decidable c] (line : Nat) :
    ∀ e ∈ ASSERT c line, e.is_call_single = false := by
  intro e he
  unfold ASSERT at he
  split at he
  · simp at he
  · simp at he
    rw [he]
    rfl

theorem no_call_append (l1 l2 : List Event) (h1 : ∀ e ∈ l1, e.is_call_single = false)
    (h2 : ∀ e ∈ l2, e.is_call_single = false) :
    ∀ e ∈ l1 ++ l2, e.is_call_single = false := by
  intro e he
  rcases List.mem_append.mp he with h | h
  · exact h1 e h
  · exact h2 e h

theorem no_call_singleton (e : Event) (h : e.is_call_single = false) :
    ∀ x ∈ [e], x.is_call_single = false := by
  intro x hx
  simp at hx
  rw [hx]
  exact h

theorem enumerate_blocks_no_call (T : SysExTypes) (mem : Memory) (header : Nat)
    (vc : Int) : ∀ e ∈ enumerate_blocks T mem header vc, e.is_call_single = false := by
  intro e he
  unfold enumerate_blocks at he
  rw [List.mem_filterMap] at he
  obtain ⟨i, _, hi⟩ := he
  simp only at hi
  split at hi
  · simp at hi
    rw [← hi]
    rfl
  · simp at hi

theorem scan_amps_no_call (T : SysExTypes) (mem : Memory) (header : Nat)
    (vc : Int) (preset : Preset) :
    ∀ e ∈ scan_amps T mem header vc preset, e.is_call_single = false := by
  intro e he
  unfold scan_amps at he
  rw [List.mem_filterMap] at he
  obtain ⟨i, _, hi⟩ := he
  simp only at hi
  split at hi
  · simp at hi
    rw [← hi]
    rfl
  · split at hi
    · simp at hi
      rw [← hi]
      rfl
    · simp at hi

theorem ParsePresetProperties_no_call (T : SysExTypes) (mem : Memory) (c : Int)
    (header size : Nat) (preset : Preset) :
    ∀ e ∈ (ParsePresetProperties T mem c header size preset).2,
      e.is_call_single = false := by
  have hev : ∀ e ∈ ASSERT (T.function mem header = T.PRESET_PROPERTY) 37 ++
      ASSERT (T.Fractal16bit_As16bit (values T mem header 0) = 0x2078) 43,
      e.is_call_single = false :=
    no_call_append _ _ (ASSERT_no_call _ _) (ASSERT_no_call _ _)
  unfold ParsePresetProperties
  simp only
  split
  · exact no_call_append _ _ hev (ASSERT_no_call _ _)
  · split
    · exact no_call_append _ _ (no_call_append _ _ hev (no_call_singleton _ rfl))
        (enumerate_blocks_no_call T mem header _)
    · split
      · exact no_call_append _ _ (no_call_append _ _ hev (no_call_singleton _ rfl))
          (scan_amps_no_call T mem header _ preset)
      · exact hev

theorem ParsePresetId_no_call (T : SysExTypes) (mem : Memory) (header size : Nat)
    (preset : Preset) :
    ∀ e ∈ (ParsePresetId T mem header size preset).2, e.is_call_single = false := by
  unfold ParsePresetId
  exact no_call_append _ _
    (no_call_append _ _ (no_call_append _ _ (ASSERT_no_call _ _) (ASSERT_no_call _ _))
      (no_call_singleton _ rfl))
    (ASSERT_no_call _ _)

theorem ParseFractalSysEx_no_call (T : SysExTypes) (mem : Memory)
    (header size : Nat) (st : ParserState) :
    ∀ e ∈ (ParseFractalSysEx T mem header size st).2, e.is_call_single = false := by
  have hev : ∀ e ∈ [Event.call_ParseFractalSysEx st.preset_chunk_id header size] ++
      ASSERT (0 < size) 133, e.is_call_single = false :=
    no_call_append _ _ (no_call_singleton _ rfl) (ASSERT_no_call _ _)
  unfold ParseFractalSysEx
  simp only
  split
  · exact no_call_append _ _ hev (no_call_singleton _ rfl)
  · split
    · exact no_call_append _ _ hev (ParsePresetId_no_call T mem header size st.preset)
    · split
      · exact no_call_append _ _ hev
          (ParsePresetProperties_no_call T mem st.preset_chunk_id header size st.preset)
      · split
        · split
          · exact no_call_append _ _ hev (no_call_singleton _ rfl)
          · exact hev
        · exact no_call_append _ _ hev (no_call_singleton _ rfl)

theorem calls_ParseSingleSysEx (T : SysExTypes) (mem : Memory)
    (sys_ex size : Nat) (st : ParserState) :
    calls (ParseSingleSysEx T mem sys_ex size st).2 = [(sys_ex, size)] := by
  have hentry : calls (ParseSingleSysEx_entry T mem sys_ex size st) = [(sys_ex, size)] := by
    unfold ParseSingleSysEx_entry
    rw [calls_append, calls_append, calls_none _ (ASSERT_no_call _ _),
      calls_none _ (ASSERT_no_call _ _)]
    rfl
  by_cases hf : size < T.kFractalMidiId.length + T.kSysExTerminationByteCount ∨
      manufacturer_bytes T mem sys_ex ≠ T.kFractalMidiId
  · rw [gate_rejects_manufacturer T mem sys_ex size st hf]
    show calls (ParseSingleSysEx_entry T mem sys_ex size st ++ [Event.not_fractal]) = _
    rw [calls_append, hentry]
    rfl
  · cases hsum : T.VerifyChecksum mem sys_ex size
    · rw [gate_rejects_checksum T mem sys_ex size st hf hsum]
      show calls (ParseSingleSysEx_entry T mem sys_ex size st ++ [Event.invalid_checksum])
        = _
      rw [calls_append, hentry]
      rfl
    · rw [gate_dispatches T mem sys_ex size st hf hsum]
      show calls (ParseSingleSysEx_entry T mem sys_ex size st ++
        (ParseFractalSysEx T mem sys_ex size st).2) = _
      rw [calls_append, hentry, calls_none _ (ParseFractalSysEx_no_call T mem sys_ex size st)]
      rfl

theorem end_markers_succ_end (T : SysExTypes) (mem : Memory) (pos n : Nat)
    (h : mem pos = T.kSysExEnd) :
    end_markers T mem pos (n + 1) = pos :: end_markers T mem (pos + 1) n := by
  simp [end_markers, List.range'_succ, h]

theorem end_markers_succ_other (T : SysExTypes) (mem : Memory) (pos n : Nat)
    (h : mem pos ≠ T.kSysExEnd) :
    end_markers T mem pos (n + 1) = end_markers T mem (pos + 1) n := by
  simp [end_markers, List.range'_succ, h]

theorem scan_slices (T : SysExTypes) (mem : Memory) (lo : Nat)
    (hne : T.kSysExEnd ≠ T.kSysExStart) :
    ∀ (n pos : Nat) (s : ScanState), lo ≤ pos →
      well_framed T mem n pos s.sys_ex_begins.isSome = true →
      (∀ b, s.sys_ex_begins = some b → lo ≤ b ∧ b < pos ∧ mem b = T.kSysExStart ∧
        ∀ p, b < p → p < pos → mem p ≠ T.kSysExStart ∧ mem p ≠ T.kSysExEnd) →
      (∀ sl ∈ calls s.log, is_frame T mem sl.1 sl.2 ∧ lo ≤ sl.1 ∧ sl.1 + sl.2 ≤ pos) →
      ∃ r, scan T mem n pos s = Outcome.returned r ∧
        (calls r.log).map (fun sl => sl.1 + sl.2 - 1)
          = (calls s.log).map (fun sl => sl.1 + sl.2 - 1) ++ end_markers T mem pos n ∧
        ∀ sl ∈ calls r.log, is_frame T mem sl.1 sl.2 ∧ lo ≤ sl.1 ∧ sl.1 + sl.2 ≤ pos + n := by
  intro n
  induction n with
  | zero =>
    intro pos s _ _ _ hgood
    exact ⟨s, rfl, by simp [end_markers], by simpa using hgood⟩
  | succ n ih =>
    intro pos s hlo hwf hinv hgood
    unfold well_framed at hwf
    by_cases hstart : mem pos = T.kSysExStart
    · rw [if_pos hstart] at hwf
      simp only [Bool.and_eq_true, Bool.not_eq_true'] at hwf
      have hnotend : mem pos ≠ T.kSysExEnd := by
        rw [hstart]
        exact fun e => hne e.symm
      have hnone : s.sys_ex_begins = none := by
        cases hb : s.sys_ex_begins with
        | none => rfl
        | some b => simp [hb] at hwf
      rw [scan_start T mem n pos s hstart, end_markers_succ_other T mem pos n hnotend]
      have hlog : s.log ++ ASSERT (s.sys_ex_begins = none) 196 = s.log := by
        simp [ASSERT, hnone]
      obtain ⟨r, hr, hends, hfr⟩ := ih (pos + 1)
        { s with sys_ex_begins := some pos,
                 log := s.log ++ ASSERT (s.sys_ex_begins = none) 196 }
        (by omega) hwf.2
        (by
          intro b hb
          simp only [Option.some.injEq] at hb
          subst hb
          exact ⟨hlo, by omega, hstart, fun p h1 h2 => by omega⟩)
        (by
          simp only [hlog]
          intro sl hsl
          have := hgood sl hsl
          exact ⟨this.1, this.2.1, by omega⟩)
      refine ⟨r, hr, ?_, ?_⟩
      · simpa only [hlog] using hends
      · intro sl hsl
        have := hfr sl hsl
        exact ⟨this.1, this.2.1, by omega⟩
    · rw [if_neg hstart] at hwf
      by_cases hend : mem pos = T.kSysExEnd
      · rw [if_pos hend] at hwf
        simp only [Bool.and_eq_true] at hwf
        obtain ⟨b, hb⟩ := Option.isSome_iff_exists.mp hwf.1
        obtain ⟨hlob, hbpos, hbstart, hclean⟩ := hinv b hb
        have hsize : pos - b + 1 = (pos - b - 1) + 2 := by omega
        have hframe : is_frame T mem b (pos - b + 1) := by
          refine ⟨by omega, hbstart, ?_, ?_⟩
          · have e : b + (pos - b + 1) - 1 = pos := by omega
            rw [e]
            exact hend
          · intro i hi
            exact hclean (b + 1 + i) (by omega) (by omega)
        rw [scan_end T mem n pos b s hend hne hb, end_markers_succ_end T mem pos n hend]
        have hcalls : calls (s.log ++ (ParseSingleSysEx T mem b (pos - b + 1) s.st).2)
            = calls s.log ++ [(b, pos - b + 1)] := by
          rw [calls_append, calls_ParseSingleSysEx]
        obtain ⟨r, hr, hends, hfr⟩ := ih (pos + 1)
          { sys_ex_begins := none,
            st := { (ParseSingleSysEx T mem b (pos - b + 1) s.st).1 with
                    preset_chunk_id :=
                      (ParseSingleSysEx T mem b (pos - b + 1) s.st).1.preset_chunk_id + 1 },
            log := s.log ++ (ParseSingleSysEx T mem b (pos - b + 1) s.st).2 }
          (by omega) hwf.2
          (by intro b2 hb2; simp at hb2)
          (by
            simp only [hcalls]
            intro sl hsl
            rcases List.mem_append.mp hsl with h1 | h1
            · have := hgood sl h1
              exact ⟨this.1, this.2.1, by omega⟩
            · simp only [List.mem_singleton] at h1
              subst h1
              exact ⟨hframe, hlob, by simp only; omega⟩)
        refine ⟨r, hr, ?_, ?_⟩
        · rw [hends]
          simp only [hcalls, List.map_append, List.map_cons, List.map_nil,
            List.append_assoc, List.singleton_append]
          have e : b + (pos - b + 1) - 1 = pos := by omega
          rw [e]
        · intro sl hsl
          have := hfr sl hsl
          exact ⟨this.1, this.2.1, by omega⟩
      · rw [if_neg hend] at hwf
        rw [scan_plain T mem n pos s hstart hend, end_markers_succ_other T mem pos n hend]
        obtain ⟨r, hr, hends, hfr⟩ := ih (pos + 1) s (by omega) hwf
          (by
            intro b hb
            obtain ⟨h1, h2, h3, h4⟩ := hinv b hb
            refine ⟨h1, by omega, h3, ?_⟩
            intro p hp1 hp2
            by_cases hp : p = pos
            · subst hp
              exact ⟨hstart, hend⟩
            · exact h4 p hp1 (by omega))
          (by
            intro sl hsl
            have := hgood sl hsl
            exact ⟨this.1, this.2.1, by omega⟩)
        refine ⟨r, hr, hends, ?_⟩
        intro sl hsl
        have := hfr sl hsl
        exact ⟨this.1, this.2.1, by omega⟩

/-- Claim C13: on a buffer in which start and end markers alternate, `ParseSysExBuffer`
returns, and the slices it has passed to `ParseSingleSysEx` are, in call order, one
per end marker of the buffer in buffer order, each ending at that end marker; every
slice is one frame (it begins at a start marker, holds no marker in between and ends
at an end marker, its length being end position - start position + 1) and lies inside
the buffer, so no byte between two frames is part of a slice. -/
theorem ParseSysExBuffer_slices (T : SysExTypes) (mem : Memory)
    (begin_ end_ : Nat) (presets_ : PresetMap)
    (hne : T.kSysExEnd ≠ T.kSysExStart)
    (hwf : well_framed T mem (end_ - begin_) begin_ false = true) :
    ∃ r, ParseSysExBuffer T mem begin_ end_ presets_ = Outcome.returned r ∧
      (calls r.log).map (fun sl => sl.1 + sl.2 - 1)
        = end_markers T mem begin_ (end_ - begin_) ∧
      ∀ sl ∈ calls r.log,
        is_frame T mem sl.1 sl.2 ∧ begin_ ≤ sl.1 ∧ sl.1 + sl.2 ≤ end_ := by
  obtain ⟨r, hr, hends, hfr⟩ :=
    scan_slices T mem begin_ hne (end_ - begin_) begin_ (initial presets_) (le_refl _) hwf
      (by intro b hb; simp [initial] at hb)
      (by intro sl hsl; simp [initial, calls] at hsl)
  have hcalls : calls (r.log ++ ASSERT (r.sys_ex_begins = none) 207) = calls r.log := by
    rw [calls_append, calls_none _ (ASSERT_no_call _ _), List.append_nil]
  refine ⟨{ r with log := r.log ++ ASSERT (r.sys_ex_begins = none) 207 }, ?_, ?_, ?_⟩
  · unfold ParseSysExBuffer
    rw [hr]
  · simp only [hcalls]
    simpa [initial, calls] using hends
  · simp only [hcalls]
    intro sl hsl
    obtain ⟨h1, h2, h3⟩ := hfr sl hsl
    have h4 := h1.1
    exact ⟨h1, h2, by omega⟩

/-- Witness of `ParseSysExBuffer_slices`: in a buffer with bytes around its two frames
the calls are the slices (2, 12) and (15, 8). -/
theorem ParseSysExBuffer_slices_witness :
    well_framed sample_types (memory_of sample_gaps) (24 - 0) 0 false = true ∧
    (∃ r, ParseSysExBuffer sample_types (memory_of sample_gaps) 0 24 [] = Outcome.returned r ∧
      calls r.log = [(2, 12), (15, 8)]) ∧
    ∃ r, ParseSysExBuffer sample_types (memory_of sample_gaps) 0 24 [] = Outcome.returned r ∧
      (calls r.log).map (fun sl => sl.1 + sl.2 - 1)
        = end_markers sample_types (memory_of sample_gaps) 0 (24 - 0) ∧
      ∀ sl ∈ calls r.log,
        is_frame sample_types (memory_of sample_gaps) sl.1 sl.2 ∧ 0 ≤ sl.1 ∧
          sl.1 + sl.2 ≤ 24 :=
  ⟨by decide, ⟨_, rfl, by decide⟩,
   ParseSysExBuffer_slices sample_types (memory_of sample_gaps) 0 24 []
     (by decide) (by decide)⟩

/-! ## Unbalanced markers -/

/-- Claim C14 at two concrete inputs. On the one-byte buffer `F7`, an end marker with
no frame open, `ParseSysExBuffer` reports line 199 and then calls `ParseSingleSysEx`
with the null `sys_ex_begins`, which dereferences it. On a buffer that opens a frame at
0 and opens another one at 2 before any end marker, it reports line 196, drops the
first start and dispatches the slice that begins at the later start marker. -/
theorem ParseSysExBuffer_unbalanced_markers :
    ParseSysExBuffer sample_types (memory_of [0xF7]) 0 1 []
      = Outcome.null_dereference
        { sys_ex_begins := none,
          st := { presets_ := [], preset := { id := -1, name := "" },
                  preset_chunk_id := 0 },
          log := [Event.assert_failed 199] } ∧
    ParseSysExBuffer sample_types (memory_of ([0xF0, 0x01] ++ sample_epilogue)) 0 10 []
      = Outcome.returned
        { sys_ex_begins := none,
          st := { presets_ := [], preset := { id := -1, name := "" },
                  preset_chunk_id := 0 },
          log := [Event.assert_failed 196, Event.call_ParseSingleSysEx 0 2 8,
                  Event.call_ParseFractalSysEx 0 2 8] } := by
  decide

/-! ## An unterminated tail -/

theorem scan_then (T : SysExTypes) (mem : Memory) (n2 : Nat) :
    ∀ (n1 pos : Nat) (s r : ScanState),
      scan T mem n1 pos s = Outcome.returned r →
      scan T mem (n1 + n2) pos s = scan T mem n2 (pos + n1) r := by
  intro n1
  induction n1 with
  | zero =>
    intro pos s r h
    simp only [scan, Outcome.returned.injEq] at h
    subst h
    simp
  | succ n1 ih =>
    intro pos s r h
    have e1 : n1 + 1 + n2 = (n1 + n2) + 1 := by omega
    have e2 : pos + (n1 + 1) = pos + 1 + n1 := by omega
    rw [e1, e2]
    by_cases hstart : mem pos = T.kSysExStart
    · rw [scan_start T mem n1 pos s hstart] at h
      rw [scan_start T mem (n1 + n2) pos s hstart]
      exact ih _ _ _ h
    · by_cases hend : mem pos = T.kSysExEnd
      · have hne : T.kSysExEnd ≠ T.kSysExStart := fun e => hstart (hend.trans e)
        cases hb : s.sys_ex_begins with
        | none =>
          rw [scan, if_neg hstart, if_pos hend] at h
          simp only [hb] at h
          exact absurd h (by simp)
        | some b =>
          rw [scan_end T mem n1 pos b s hend hne hb] at h
          rw [scan_end T mem (n1 + n2) pos b s hend hne hb]
          exact ih _ _ _ h
      · rw [scan_plain T mem n1 pos s hstart hend] at h
        rw [scan_plain T mem (n1 + n2) pos s hstart hend]
        exact ih _ _ _ h

theorem scan_open_tail (T : SysExTypes) (mem : Memory) :
    ∀ (n pos : Nat) (s : ScanState),
      (∀ p, pos ≤ p → p < pos + n → mem p ≠ T.kSysExEnd) →
      ∃ r, scan T mem n pos s = Outcome.returned r ∧ r.st = s.st ∧
        calls r.log = calls s.log ∧
        (s.sys_ex_begins ≠ none → r.sys_ex_begins ≠ none) ∧
        (0 < n → mem pos = T.kSysExStart → r.sys_ex_begins ≠ none) := by
  intro n
  induction n with
  | zero =>
    intro pos s _
    exact ⟨s, rfl, rfl, rfl, fun h => h, fun h => absurd h (by omega)⟩
  | succ n ih =>
    intro pos s hno
    have hend : mem pos ≠ T.kSysExEnd := hno pos (le_refl _) (by omega)
    have hno2 : ∀ p, pos + 1 ≤ p → p < pos + 1 + n → mem p ≠ T.kSysExEnd :=
      fun p h1 h2 => hno p (by omega) (by omega)
    by_cases hstart : mem pos = T.kSysExStart
    · rw [scan_start T mem n pos s hstart]
      obtain ⟨r, hr, hst, hcalls, hopen, _⟩ := ih (pos + 1)
        { s with sys_ex_begins := some pos,
                 log := s.log ++ ASSERT (s.sys_ex_begins = none) 196 } hno2
      refine ⟨r, hr, hst, ?_, fun _ => hopen (by simp), fun _ _ => hopen (by simp)⟩
      rw [hcalls]
      show calls (s.log ++ ASSERT (s.sys_ex_begins = none) 196) = calls s.log
      rw [calls_append, calls_none _ (ASSERT_no_call _ _), List.append_nil]
    · rw [scan_plain T mem n pos s hstart hend]
      obtain ⟨r, hr, hst, hcalls, hopen, _⟩ := ih (pos + 1) s hno2
      exact ⟨r, hr, hst, hcalls, hopen, fun _ h => absurd h hstart⟩

/-- The unterminated tail on one memory: let the bytes from `begin_` to `mid` be a
buffer in which start and end markers alternate, and let the bytes from `mid` to `end_`
begin with a start marker and hold no end marker. Then `ParseSysExBuffer` returns on
both ranges of this memory, on the longer one it reports the frame left open (the
`ASSERT` of line 207), it hands `ParseSingleSysEx` the same slices as on the shorter
one, and it ends with the same store, the same in-flight preset and the same chunk
counter. The shorter run has the bytes of the tail behind its end: what a message
reads past its own end is the same in both runs. -/
theorem ParseSysExBuffer_unterminated_tail (T : SysExTypes) (mem : Memory)
    (begin_ mid end_ : Nat) (presets_ : PresetMap)
    (h1 : begin_ ≤ mid) (h2 : mid < end_)
    (hwf : well_framed T mem (mid - begin_) begin_ false = true)
    (hstart : mem mid = T.kSysExStart)
    (hno : ∀ p, mid ≤ p → p < end_ → mem p ≠ T.kSysExEnd) :
    ∃ rP r, ParseSysExBuffer T mem begin_ mid presets_ = Outcome.returned rP ∧
      ParseSysExBuffer T mem begin_ end_ presets_ = Outcome.returned r ∧
      r.st = rP.st ∧ calls r.log = calls rP.log ∧
      Event.assert_failed 207 ∈ r.log ∧ r.sys_ex_begins ≠ none := by
  obtain ⟨rP, hP, hnone, _⟩ :=
    scan_well_framed T mem (mid - begin_) begin_ (initial presets_) hwf rfl
  have e : end_ - begin_ = (mid - begin_) + (end_ - mid) := by omega
  have e2 : begin_ + (mid - begin_) = mid := by omega
  obtain ⟨r, hr, hst, hcalls, _, hopen⟩ :=
    scan_open_tail T mem (end_ - mid) mid rP
      (fun p hp1 hp2 => hno p hp1 (by omega))
  have hscan : scan T mem (end_ - begin_) begin_ (initial presets_) = Outcome.returned r := by
    rw [e, scan_then T mem (end_ - mid) (mid - begin_) begin_ _ rP hP, e2]
    exact hr
  have hopen2 : r.sys_ex_begins ≠ none := hopen (by omega) hstart
  refine ⟨{ rP with log := rP.log ++ ASSERT (rP.sys_ex_begins = none) 207 },
    { r with log := r.log ++ ASSERT (r.sys_ex_begins = none) 207 }, ?_, ?_, hst, ?_, ?_,
    hopen2⟩
  · unfold ParseSysExBuffer
    rw [hP]
  · unfold ParseSysExBuffer
    rw [hscan]
  · show calls (r.log ++ ASSERT (r.sys_ex_begins = none) 207)
      = calls (rP.log ++ ASSERT (rP.sys_ex_begins = none) 207)
    rw [calls_append, calls_append, calls_none _ (ASSERT_no_call _ _),
      calls_none _ (ASSERT_no_call _ _), hcalls]
  · show Event.assert_failed 207 ∈ r.log ++ ASSERT (r.sys_ex_begins = none) 207
    simp [ASSERT, hopen2]

/-- Witness of `ParseSysExBuffer_unterminated_tail`: the preset decoded before the
open frame is kept. -/
theorem ParseSysExBuffer_unterminated_tail_witness :
    (well_framed sample_types (memory_of sample_open_tail) (132 - 0) 0 false = true ∧
     memory_of sample_open_tail 132 = sample_types.kSysExStart) ∧
    (∃ r, ParseSysExBuffer sample_types (memory_of sample_open_tail) 0 136 []
        = Outcome.returned r ∧
      r.st.presets_ = [(5, { id := 5, name := "Lead" })]) ∧
    ∃ rP r, ParseSysExBuffer sample_types (memory_of sample_open_tail) 0 132 []
        = Outcome.returned rP ∧
      ParseSysExBuffer sample_types (memory_of sample_open_tail) 0 136 []
        = Outcome.returned r ∧
      r.st = rP.st ∧ calls r.log = calls rP.log ∧
      Event.assert_failed 207 ∈ r.log ∧ r.sys_ex_begins ≠ none :=
  ⟨by decide, ⟨_, rfl, by decide⟩,
   ParseSysExBuffer_unterminated_tail sample_types (memory_of sample_open_tail) 0 132 136 []
     (by decide) (by decide) (by decide) (by decide) (by decide)⟩

/-- Claim C15 at a concrete input. The buffer `sample_short_preset` holds the identity
of preset 5, a name block cut short and an epilogue; its markers alternate. Each tail
begins with a start marker and holds no end marker. The name block reads its character
run past its own end (line 48 reports it, line 50 reads all the same), through the
epilogue and on into whatever lies behind the buffer. On the buffer alone the preset
is stored under the name made of the bytes `F0 74 7F`; followed by the tail
`F0 41 00 00 42`, under the name made of `F0 74 7F 41 42`; followed by the tail
`F0 43 00 00 44`, under the name made of `F0 74 7F 43 44`, the frame of the tail left
open each time. The bytes of the unterminated tail end up in the stored preset, and
the store is not the one of the buffer alone. -/
theorem unterminated_tail_changes_store :
    (sample_short_preset.length = 34 ∧
     well_framed sample_types (memory_of sample_short_preset) 34 0 false = true ∧
     (sample_tail 0x41 0x42).head? = some sample_types.kSysExStart ∧
     sample_types.kSysExEnd ∉ sample_tail 0x41 0x42 ∧
     (sample_tail 0x43 0x44).head? = some sample_types.kSysExStart ∧
     sample_types.kSysExEnd ∉ sample_tail 0x43 0x44) ∧
    (ParseSysExBuffer sample_types (memory_of sample_short_preset) 0 34 []).data
      = (true, none,
         [(5, { id := 5,
                name := String.mk [Char.ofNat 0xF0, Char.ofNat 0x74, Char.ofNat 0x7F] })],
         { id := -1,
           name := String.mk [Char.ofNat 0xF0, Char.ofNat 0x74, Char.ofNat 0x7F] }) ∧
    (ParseSysExBuffer sample_types
        (memory_of (sample_short_preset ++ sample_tail 0x41 0x42)) 0 39 []).data
      = (true, some 34,
         [(5, { id := 5,
                name := String.mk [Char.ofNat 0xF0, Char.ofNat 0x74, Char.ofNat 0x7F,
                  Char.ofNat 0x41, Char.ofNat 0x42] })],
         { id := -1,
           name := String.mk [Char.ofNat 0xF0, Char.ofNat 0x74, Char.ofNat 0x7F,
             Char.ofNat 0x41, Char.ofNat 0x42] }) ∧
    (ParseSysExBuffer sample_types
        (memory_of (sample_short_preset ++ sample_tail 0x43 0x44)) 0 39 []).data
      = (true, some 34,
         [(5, { id := 5,
                name := String.mk [Char.ofNat 0xF0, Char.ofNat 0x74, Char.ofNat 0x7F,
                  Char.ofNat 0x43, Char.ofNat 0x44] })],
         { id := -1,
           name := String.mk [Char.ofNat 0xF0, Char.ofNat 0x74, Char.ofNat 0x7F,
             Char.ofNat 0x43, Char.ofNat 0x44] }) ∧
    (ParseSysExBuffer sample_types
        (memory_of (sample_short_preset ++ sample_tail 0x41 0x42)) 0 39 []).data.2.2.1
      ≠ (ParseSysExBuffer sample_types (memory_of sample_short_preset) 0 34 []).data.2.2.1 :=
  ⟨⟨by decide, by decide, by decide, by decide, by decide, by decide⟩,
   by decide, by decide, by decide, by decide⟩

/-! ## Reading past the message -/

/-- Claim C16 at a concrete input. The buffer holds the identity of preset 5, a name
block cut short, an identity message whose checksum byte is corrupted, an epilogue
and a foreign message; markers alternate, and the corrupted message is dropped with
"Invalid checksum.". The name block reads its character run past its own end
(line 48 reports it, line 50 reads all the same), that is from the bytes of whatever
message follows it. With the corrupted message in place the preset is stored under
the name made of the bytes `F0 74`; with that message removed, under the name made
of `F0 74 7F`. The two stores differ. -/
theorem removing_dropped_message_changes_store :
    (well_framed sample_types (memory_of sample_with_corrupt) 54 0 false = true ∧
     well_framed sample_types (memory_of sample_without_corrupt) 42 0 false = true ∧
     sample_without_corrupt = sample_with_corrupt.take 26 ++ sample_with_corrupt.drop 38 ∧
     is_frame sample_types (memory_of sample_with_corrupt) 26 12 ∧
     sample_types.VerifyChecksum (memory_of sample_with_corrupt) 26 12 = false ∧
     is_axefx2_message sample_types (memory_of (sample_id 0x00 0x09)) 0 12
       sample_types.PRESET_ID ∧
     sample_corrupt_id9 = (sample_id 0x00 0x09).set 10 0x69) ∧
    (ParseSysExBuffer sample_types (memory_of sample_with_corrupt) 0 54 []).data
      = (true, none,
         [(5, { id := 5, name := String.mk [Char.ofNat 0xF0, Char.ofNat 0x74] })],
         { id := -1, name := String.mk [Char.ofNat 0xF0, Char.ofNat 0x74] }) ∧
    (ParseSysExBuffer sample_types (memory_of sample_without_corrupt) 0 42 []).data
      = (true, none,
         [(5, { id := 5,
                name := String.mk [Char.ofNat 0xF0, Char.ofNat 0x74, Char.ofNat 0x7F] })],
         { id := -1,
           name := String.mk [Char.ofNat 0xF0, Char.ofNat 0x74, Char.ofNat 0x7F] }) := by
  decide

/-- Claim C18 at concrete inputs. The message has `value_count = 3` and is followed by
an epilogue. With the chunk counter at 2 the loop `i <= value_count` also visits
index 3, the value made of the checksum byte, the end marker and the first byte of
the next message, and prints it as a block. With the counter at 3 the scan finds `6A`
at index 2 and reads `values[3]` and `values[4]`, the latter wholly inside the next
message. With a name block cut short, the character run at `values[3]` starts where
the message ends: line 48 reports it and the name is read from the next message. -/
theorem ParsePresetProperties_reads_past_message :
    (is_axefx2_message sample_types (memory_of (sample_blocks ++ sample_epilogue)) 0 16
        sample_types.PRESET_PROPERTY ∧
     value_count sample_types 16 = 3) ∧
    ParsePresetProperties sample_types (memory_of (sample_blocks ++ sample_epilogue)) 2 0 16
        { id := 5, name := "Lead" }
      = ({ id := 5, name := "Lead" },
         [Event.printf_value_count 3 5, Event.printf_block 0 8312,
          Event.printf_block 1 5, Event.printf_block 2 16490,
          Event.printf_block 3 15312]) ∧
    ParsePresetProperties sample_types (memory_of (sample_blocks ++ sample_epilogue)) 3 0 16
        { id := 5, name := "Lead" }
      = ({ id := 5, name := "Lead" },
         [Event.printf_value_count 3 5,
          Event.printf_amp1 2 128 true true 15312 { id := 5, name := "Lead" }]) ∧
    (is_axefx2_message sample_types (memory_of (sample_short_name ++ sample_epilogue)) 0 14
        sample_types.PRESET_PROPERTY ∧
     value_count sample_types 14 = 2 ∧
     values_addr sample_types 0 3 = 14) ∧
    ParsePresetProperties sample_types (memory_of (sample_short_name ++ sample_epilogue)) 1 0 14
        { id := 5, name := "" }
      = ({ id := 5,
           name := String.mk [Char.ofNat 0xF0, Char.ofNat 0x74, Char.ofNat 0x7F] },
         [Event.assert_failed 48]) := by
  decide

/-! ## Two presets in a buffer -/

theorem ParsePresetId_assigned (T : SysExTypes) (mem : Memory) (header size : Nat)
    (preset : Preset) :
    (ParsePresetId T mem header size preset).1
      = { id := assigned_id T mem header, name := preset.name } := by
  simp [ParsePresetId, assigned_id]

theorem PresetMap.find_insert (m : PresetMap) (k j : Int) (v : Preset) :
    (m.insert (k, v)).find j
      = if j = k then some ((m.find k).getD v) else m.find j := by
  unfold PresetMap.insert
  simp only
  by_cases hjk : j = k
  · subst hjk
    rw [if_pos rfl]
    cases hf : m.find j with
    | none =>
      simp only [Option.isSome_none, Bool.false_eq_true, if_false, Option.getD_none]
      exact PresetMap.find_place_self m (j, v) hf
    | some old => simp [hf]
  · rw [if_neg hjk]
    split
    · rfl
    · exact PresetMap.find_place_ne m (k, v) j hjk

theorem scan_single_preset (T : SysExTypes) (mem : Memory)
    (n pos n1 n2 n3 : Nat) (S : String) (s : ScanState)
    (hne : T.kSysExEnd ≠ T.kSysExStart) (hs : s.sys_ex_begins = none)
    (h1 : is_axefx2_message T mem pos n1 T.PRESET_ID)
    (h2 : is_axefx2_message T mem (pos + n1) n2 T.PRESET_PROPERTY)
    (htag : T.Fractal16bit_As16bit (values T mem (pos + n1) 0) = 0x2078)
    (hb2 : (values T mem (pos + n1) 1).b2 = 0x04)
    (hS : T.PresetName_ToString mem (values_addr T (pos + n1) 3) = S)
    (hS0 : S ≠ "")
    (h3 : is_axefx2_message T mem (pos + n1 + n2) n3 T.PRESET_EPILOGUE) :
    ∃ r, scan T mem (n1 + (n2 + (n3 + n))) pos s = scan T mem n (pos + n1 + n2 + n3) r ∧
      r.sys_ex_begins = none ∧
      r.st = { presets_ := s.st.presets_.insert
                 (assigned_id T mem pos, { id := assigned_id T mem pos, name := S }),
               preset := { id := -1, name := S },
               preset_chunk_id := 0 } := by
  rw [scan_frame T mem _ pos n1 _ hne h1.1 hs,
    scan_frame T mem _ (pos + n1) n2 _ hne h2.1 rfl,
    scan_frame T mem _ (pos + n1 + n2) n3 _ hne h3.1 rfl]
  refine ⟨_, rfl, rfl, ?_⟩
  simp only [after_frame]
  rw [ParseSingleSysEx_valid T mem pos n1 _ _ h1]
  simp only [ParseFractalSysEx_id T mem pos n1 _ h1.2.2.2.2.1 h1.2.2.2.2.2,
    ParsePresetId_assigned]
  rw [ParseSingleSysEx_valid T mem (pos + n1) n2 _ _ h2]
  simp only [ParseFractalSysEx_property T mem (pos + n1) n2 _ h2.2.2.2.2.1 h2.2.2.2.2.2,
    ParsePresetProperties_name T mem _ (pos + n1) n2 _ htag hb2, hS]
  rw [ParseSingleSysEx_valid T mem (pos + n1 + n2) n3 _ _ h3]
  rw [ParseFractalSysEx_epilogue_named T mem (pos + n1 + n2) n3 _
    h3.2.2.2.2.1 h3.2.2.2.2.2 hS0]
  simp

/-- Claim C17: let a buffer be the concatenation of two single-preset sequences, each
made of a valid `PRESET_ID` message, a valid name block with a non-empty name and a
valid `PRESET_EPILOGUE` message; let `x` be the id that the first identity message
assigns and `y` the id that the second one assigns. On an empty store
`ParseSysExBuffer` returns with a store that has an entry under `x` (the first preset)
and an entry under `y` (the second preset, or the first one when `y = x`). The order of
the two sequences is not restricted, so this covers the concatenation of A and B
and that of B and A. -/
theorem ParseSysExBuffer_two_presets (T : SysExTypes) (mem : Memory)
    (begin_ n1 n2 n3 m1 m2 m3 : Nat) (S1 S2 : String)
    (hne : T.kSysExEnd ≠ T.kSysExStart)
    (h1 : is_axefx2_message T mem begin_ n1 T.PRESET_ID)
    (h2 : is_axefx2_message T mem (begin_ + n1) n2 T.PRESET_PROPERTY)
    (htag : T.Fractal16bit_As16bit (values T mem (begin_ + n1) 0) = 0x2078)
    (hb2 : (values T mem (begin_ + n1) 1).b2 = 0x04)
    (hS : T.PresetName_ToString mem (values_addr T (begin_ + n1) 3) = S1)
    (hS0 : S1 ≠ "")
    (h3 : is_axefx2_message T mem (begin_ + n1 + n2) n3 T.PRESET_EPILOGUE)
    (k1 : is_axefx2_message T mem (begin_ + n1 + n2 + n3) m1 T.PRESET_ID)
    (k2 : is_axefx2_message T mem (begin_ + n1 + n2 + n3 + m1) m2 T.PRESET_PROPERTY)
    (ktag : T.Fractal16bit_As16bit (values T mem (begin_ + n1 + n2 + n3 + m1) 0) = 0x2078)
    (kb2 : (values T mem (begin_ + n1 + n2 + n3 + m1) 1).b2 = 0x04)
    (kS : T.PresetName_ToString mem (values_addr T (begin_ + n1 + n2 + n3 + m1) 3) = S2)
    (kS0 : S2 ≠ "")
    (k3 : is_axefx2_message T mem (begin_ + n1 + n2 + n3 + m1 + m2) m3 T.PRESET_EPILOGUE) :
    ∃ r, ParseSysExBuffer T mem begin_ (begin_ + n1 + n2 + n3 + m1 + m2 + m3) []
        = Outcome.returned r ∧
      r.st.presets_.find (assigned_id T mem begin_)
        = some { id := assigned_id T mem begin_, name := S1 } ∧
      r.st.presets_.find (assigned_id T mem (begin_ + n1 + n2 + n3))
        = some (if assigned_id T mem (begin_ + n1 + n2 + n3) = assigned_id T mem begin_
            then { id := assigned_id T mem begin_, name := S1 }
            else { id := assigned_id T mem (begin_ + n1 + n2 + n3), name := S2 }) := by
  have e : begin_ + n1 + n2 + n3 + m1 + m2 + m3 - begin_
      = n1 + (n2 + (n3 + (m1 + (m2 + (m3 + 0))))) := by omega
  obtain ⟨r1, hr1, hnone1, hst1⟩ :=
    scan_single_preset T mem (m1 + (m2 + (m3 + 0))) begin_ n1 n2 n3 S1 (initial []) hne rfl
      h1 h2 htag hb2 hS hS0 h3
  obtain ⟨r2, hr2, hnone2, hst2⟩ :=
    scan_single_preset T mem 0 (begin_ + n1 + n2 + n3) m1 m2 m3 S2 r1 hne hnone1
      k1 k2 ktag kb2 kS kS0 k3
  refine ⟨{ r2 with log := r2.log ++ ASSERT (r2.sys_ex_begins = none) 207 }, ?_, ?_, ?_⟩
  · unfold ParseSysExBuffer
    rw [e, hr1, hr2, scan]
  · show r2.st.presets_.find (assigned_id T mem begin_) = _
    rw [hst2, hst1]
    simp only [initial, PresetMap.find_insert, PresetMap.find]
    by_cases hxy : assigned_id T mem begin_ = assigned_id T mem (begin_ + n1 + n2 + n3)
    · simp [hxy]
    · simp [hxy]
  · show r2.st.presets_.find (assigned_id T mem (begin_ + n1 + n2 + n3)) = _
    rw [hst2, hst1]
    simp only [initial, PresetMap.find_insert, PresetMap.find]
    by_cases hxy : assigned_id T mem (begin_ + n1 + n2 + n3) = assigned_id T mem begin_
    · simp [hxy]
    · have hyx : ¬ assigned_id T mem begin_ = assigned_id T mem (begin_ + n1 + n2 + n3) :=
        fun e => hxy e.symm
      simp [hxy, hyx]

/-- Witness of `ParseSysExBuffer_two_presets`: the buffer of preset 9 "Bass" followed
by the buffer of preset 5 "Lead" gives a store with both. -/
theorem ParseSysExBuffer_two_presets_witness :
    (∃ r, ParseSysExBuffer sample_types (memory_of (sample_bass ++ sample_lead)) 0 264 []
        = Outcome.returned r ∧
      r.st.presets_ = [(5, { id := 5, name := "Lead" }), (9, { id := 9, name := "Bass" })]) ∧
    ∃ r, ParseSysExBuffer sample_types (memory_of (sample_bass ++ sample_lead)) 0
        (0 + 12 + 112 + 8 + 12 + 112 + 8) [] = Outcome.returned r ∧
      r.st.presets_.find (assigned_id sample_types (memory_of (sample_bass ++ sample_lead)) 0)
        = some { id := assigned_id sample_types (memory_of (sample_bass ++ sample_lead)) 0,
                 name := "Bass" } ∧
      r.st.presets_.find
          (assigned_id sample_types (memory_of (sample_bass ++ sample_lead)) (0 + 12 + 112 + 8))
        = some (if assigned_id sample_types (memory_of (sample_bass ++ sample_lead))
                  (0 + 12 + 112 + 8)
                = assigned_id sample_types (memory_of (sample_bass ++ sample_lead)) 0
            then { id := assigned_id sample_types (memory_of (sample_bass ++ sample_lead)) 0,
                   name := "Bass" }
            else { id := assigned_id sample_types (memory_of (sample_bass ++ sample_lead))
                     (0 + 12 + 112 + 8),
                   name := "Lead" }) :=
  ⟨⟨_, rfl, by decide⟩,
   ParseSysExBuffer_two_presets sample_types (memory_of (sample_bass ++ sample_lead))
     0 12 112 8 12 112 8 "Bass" "Lead"
     (by decide) (by decide) (by decide) (by decide) (by decide) (by decide) (by decide)
     (by decide) (by decide) (by decide) (by decide) (by decide) (by decide) (by decide)
     (by decide)⟩

/-! ## The chunk counter -/

theorem expected_counter_append (T : SysExTypes) (mem : Memory) (l1 : List Event) :
    ∀ (c : Int) (l2 : List Event),
      expected_counter T mem c (l1 ++ l2)
        = (expected_counter T mem c l1).bind fun d => expected_counter T mem d l2 := by
  induction l1 with
  | nil => intro c l2; simp [expected_counter]
  | cons e es ih =>
    intro c l2
    cases e with
    | call_ParseSingleSysEx k a n =>
      simp only [List.cons_append, expected_counter]
      split
      · exact ih _ _
      · simp
    | _ => simpa [expected_counter] using ih c l2

theorem expected_counter_no_call (T : SysExTypes) (mem : Memory) (l : List Event)
    (c : Int) (h : ∀ e ∈ l, e.is_call_single = false) :
    expected_counter T mem c l = some c := by
  induction l with
  | nil => simp [expected_counter]
  | cons e es ih =>
    have he := h e (List.mem_cons_self e es)
    have ih2 := ih (fun x hx => h x (List.mem_cons_of_mem e hx))
    cases e <;> simp_all [expected_counter, Event.is_call_single]

theorem ParseFractalSysEx_chunk_id (T : SysExTypes) (mem : Memory)
    (header size : Nat) (st : ParserState) :
    (ParseFractalSysEx T mem header size st).1.preset_chunk_id
      = if T.model mem header = T.AXE_FX_II ∧ T.function mem header = T.PRESET_EPILOGUE
        then -1 else st.preset_chunk_id := by
  have h1 : T.PRESET_EPILOGUE ≠ T.PRESET_ID := fun e => T.id_ne_epilogue e.symm
  have h2 : T.PRESET_EPILOGUE ≠ T.PRESET_PROPERTY := fun e => T.property_ne_epilogue e.symm
  unfold ParseFractalSysEx
  simp only
  by_cases hm : T.model mem header = T.AXE_FX_II
  · rw [if_neg (by simpa using hm)]
    by_cases hf1 : T.function mem header = T.PRESET_ID
    · rw [if_pos hf1, if_neg (by rw [hf1]; exact fun h => T.id_ne_epilogue h.2)]
    · rw [if_neg hf1]
      by_cases hf2 : T.function mem header = T.PRESET_PROPERTY
      · rw [if_pos hf2, if_neg (by rw [hf2]; exact fun h => T.property_ne_epilogue h.2)]
      · rw [if_neg hf2]
        by_cases hf3 : T.function mem header = T.PRESET_EPILOGUE
        · have he : T.model mem header = T.AXE_FX_II ∧
              T.function mem header = T.PRESET_EPILOGUE := ⟨hm, hf3⟩
          rw [if_pos hf3]
          by_cases hname : st.preset.name ≠ ""
          · rw [if_pos hname, if_pos he]
          · rw [if_neg hname, if_pos he]
        · rw [if_neg hf3, if_neg (fun h => hf3 h.2)]
  · rw [if_pos hm, if_neg (fun h => hm h.1)]

theorem ParseSingleSysEx_chunk_id (T : SysExTypes) (mem : Memory)
    (sys_ex size : Nat) (st : ParserState) :
    (ParseSingleSysEx T mem sys_ex size st).1.preset_chunk_id
      = if handled_epilogue T mem sys_ex size then -1 else st.preset_chunk_id := by
  by_cases hf : size < T.kFractalMidiId.length + T.kSysExTerminationByteCount ∨
      manufacturer_bytes T mem sys_ex ≠ T.kFractalMidiId
  · rw [gate_rejects_manufacturer T mem sys_ex size st hf]
    have : handled_epilogue T mem sys_ex size = false := by
      simp only [handled_epilogue, decide_eq_false_iff_not]
      exact fun h => h.1 hf
    rw [this]
    rfl
  · cases hsum : T.VerifyChecksum mem sys_ex size
    · rw [gate_rejects_checksum T mem sys_ex size st hf hsum]
      have : handled_epilogue T mem sys_ex size = false := by
        simp only [handled_epilogue, decide_eq_false_iff_not]
        intro h
        rw [hsum] at h
        exact absurd h.2.1 (by simp)
      rw [this]
      rfl
    · rw [gate_dispatches T mem sys_ex size st hf hsum]
      show (ParseFractalSysEx T mem sys_ex size st).1.preset_chunk_id = _
      rw [ParseFractalSysEx_chunk_id]
      by_cases he : T.model mem sys_ex = T.AXE_FX_II ∧
          T.function mem sys_ex = T.PRESET_EPILOGUE
      · have : handled_epilogue T mem sys_ex size = true := by
          simp only [handled_epilogue, decide_eq_true_eq]
          exact ⟨hf, hsum, he⟩
        rw [this, if_pos he]
        rfl
      · have : handled_epilogue T mem sys_ex size = false := by
          simp only [handled_epilogue, decide_eq_false_iff_not]
          exact fun h => he h.2.2
        rw [this, if_neg he]
        rfl

theorem ParseSingleSysEx_expected_counter (T : SysExTypes) (mem : Memory)
    (sys_ex size : Nat) (st : ParserState) :
    expected_counter T mem st.preset_chunk_id (ParseSingleSysEx T mem sys_ex size st).2
      = some ((ParseSingleSysEx T mem sys_ex size st).1.preset_chunk_id + 1) := by
  have hentry : ∀ rest : List Event, (∀ e ∈ rest, e.is_call_single = false) →
      expected_counter T mem st.preset_chunk_id
        (ParseSingleSysEx_entry T mem sys_ex size st ++ rest)
      = some ((if handled_epilogue T mem sys_ex size then -1 else st.preset_chunk_id) + 1) := by
    intro rest hrest
    unfold ParseSingleSysEx_entry
    rw [expected_counter_append, expected_counter_append, expected_counter_append]
    simp only [expected_counter, if_true, Option.some_bind,
      expected_counter_no_call T mem _ _ (ASSERT_no_call _ _),
      expected_counter_no_call T mem _ _ hrest]
    split <;> simp
  rw [ParseSingleSysEx_chunk_id]
  by_cases hf : size < T.kFractalMidiId.length + T.kSysExTerminationByteCount ∨
      manufacturer_bytes T mem sys_ex ≠ T.kFractalMidiId
  · rw [gate_rejects_manufacturer T mem sys_ex size st hf]
    exact hentry _ (no_call_singleton _ rfl)
  · cases hsum : T.VerifyChecksum mem sys_ex size
    · rw [gate_rejects_checksum T mem sys_ex size st hf hsum]
      exact hentry _ (no_call_singleton _ rfl)
    · rw [gate_dispatches T mem sys_ex size st hf hsum]
      exact hentry _ (ParseFractalSysEx_no_call T mem sys_ex size st)

theorem scan_counter (T : SysExTypes) (mem : Memory) :
    ∀ (n pos : Nat) (s : ScanState),
      well_framed T mem n pos s.sys_ex_begins.isSome = true →
      expected_counter T mem 0 s.log = some s.st.preset_chunk_id →
      ∃ r, scan T mem n pos s = Outcome.returned r ∧ r.sys_ex_begins = none ∧
        expected_counter T mem 0 r.log = some r.st.preset_chunk_id := by
  intro n
  induction n with
  | zero =>
    intro pos s hwf hinv
    refine ⟨s, rfl, ?_, hinv⟩
    cases hb : s.sys_ex_begins with
    | none => rfl
    | some b => simp [well_framed, hb] at hwf
  | succ n ih =>
    intro pos s hwf hinv
    unfold well_framed at hwf
    by_cases hstart : mem pos = T.kSysExStart
    · rw [if_pos hstart] at hwf
      simp only [Bool.and_eq_true, Bool.not_eq_true'] at hwf
      rw [scan_start T mem n pos s hstart]
      apply ih
      · exact hwf.2
      · show expected_counter T mem 0 (s.log ++ ASSERT (s.sys_ex_begins = none) 196)
          = some s.st.preset_chunk_id
        rw [expected_counter_append, hinv]
        exact expected_counter_no_call T mem _ _ (ASSERT_no_call _ _)
    · rw [if_neg hstart] at hwf
      by_cases hend : mem pos = T.kSysExEnd
      · rw [if_pos hend] at hwf
        simp only [Bool.and_eq_true] at hwf
        obtain ⟨b, hb⟩ := Option.isSome_iff_exists.mp hwf.1
        have hne : T.kSysExEnd ≠ T.kSysExStart := fun e => hstart (hend.trans e)
        rw [scan_end T mem n pos b s hend hne hb]
        apply ih
        · exact hwf.2
        · show expected_counter T mem 0
              (s.log ++ (ParseSingleSysEx T mem b (pos - b + 1) s.st).2)
            = some ((ParseSingleSysEx T mem b (pos - b + 1) s.st).1.preset_chunk_id + 1)
          rw [expected_counter_append, hinv]
          exact ParseSingleSysEx_expected_counter T mem b (pos - b + 1) s.st
      · rw [if_neg hend] at hwf
        rw [scan_plain T mem n pos s hstart hend]
        exact ih (pos + 1) s hwf hinv

/-- Claim C19: on a buffer in which start and end markers alternate, `ParseSysExBuffer`
returns, and the chunk counter it passes with each message is the number of messages
consumed since the most recent handled epilogue, or since the start of the buffer
when there was none: 0 for the first message, one more for each message after it
whether that message was dropped or handled, and 0 again for the message after an
epilogue, which sets the counter to -1 before the scanner adds one. The counter left
at the end follows the same rule. -/
theorem chunk_counter_counts_messages (T : SysExTypes) (mem : Memory)
    (begin_ end_ : Nat) (presets_ : PresetMap)
    (hwf : well_framed T mem (end_ - begin_) begin_ false = true) :
    (∃ r, ParseSysExBuffer T mem begin_ end_ presets_ = Outcome.returned r ∧
      expected_counter T mem 0 r.log = some r.st.preset_chunk_id) ∧
    (∀ sys_ex size st, handled_epilogue T mem sys_ex size = true →
      (ParseSingleSysEx T mem sys_ex size st).1.preset_chunk_id = -1) ∧
    (∀ sys_ex size st, handled_epilogue T mem sys_ex size = false →
      (ParseSingleSysEx T mem sys_ex size st).1.preset_chunk_id = st.preset_chunk_id) := by
  refine ⟨?_, ?_, ?_⟩
  · obtain ⟨r, hr, _, hinv⟩ :=
      scan_counter T mem (end_ - begin_) begin_ (initial presets_) hwf rfl
    refine ⟨{ r with log := r.log ++ ASSERT (r.sys_ex_begins = none) 207 }, ?_, ?_⟩
    · unfold ParseSysExBuffer
      rw [hr]
    · show expected_counter T mem 0 (r.log ++ ASSERT (r.sys_ex_begins = none) 207)
        = some r.st.preset_chunk_id
      rw [expected_counter_append, hinv]
      exact expected_counter_no_call T mem _ _ (ASSERT_no_call _ _)
  · intro sys_ex size st h
    rw [ParseSingleSysEx_chunk_id, h]
    rfl
  · intro sys_ex size st h
    rw [ParseSingleSysEx_chunk_id, h]
    rfl

/-- Witness of `chunk_counter_counts_messages`: in the buffer of the identity of preset
5, a message with a corrupted checksum, the name block "Lead", an epilogue and a name
block, the counters passed are 0, 1, 2, 3 and 0. -/
theorem chunk_counter_counts_messages_witness :
    well_framed sample_types
        (memory_of (sample_id 0x00 0x05 ++ sample_corrupt_id9 ++ sample_lead.drop 12 ++
          sample_name [66]))
        (256 - 0) 0 false = true ∧
    (∃ r, ParseSysExBuffer sample_types
          (memory_of (sample_id 0x00 0x05 ++ sample_corrupt_id9 ++ sample_lead.drop 12 ++
            sample_name [66])) 0 256 []
        = Outcome.returned r ∧
      r.log.filterMap (fun e => match e with
          | Event.call_ParseSingleSysEx c _ _ => some c
          | _ => none) = [0, 1, 2, 3, 0]) ∧
    ∃ r, ParseSysExBuffer sample_types
          (memory_of (sample_id 0x00 0x05 ++ sample_corrupt_id9 ++ sample_lead.drop 12 ++
            sample_name [66])) 0 256 []
        = Outcome.returned r ∧
      expected_counter sample_types
          (memory_of (sample_id 0x00 0x05 ++ sample_corrupt_id9 ++ sample_lead.drop 12 ++
            sample_name [66])) 0 r.log
        = some r.st.preset_chunk_id :=
  ⟨by decide, ⟨_, rfl, by decide⟩,
   (chunk_counter_counts_messages sample_types
      (memory_of (sample_id 0x00 0x05 ++ sample_corrupt_id9 ++ sample_lead.drop 12 ++
        sample_name [66])) 0 256 [] (by decide)).1⟩

/-! ## Adding the parsed presets to the list (axys/tree_root_item.cc) -/

theorem add_preset_foldl {P : Type} (is_global_setting from_edit_buffer : P → Bool)
    (allow : Bool) (presets : List (Int × P)) :
    ∀ s : AddState P,
      (presets.foldl (add_preset is_global_setting from_edit_buffer allow) s).action
        = s.action ++ (presets.map Prod.snd).filter
            (fun q => !is_global_setting q && (allow || !from_edit_buffer q)) ∧
      (presets.foldl (add_preset is_global_setting from_edit_buffer allow) s).presets_added
        = (s.presets_added || !((presets.map Prod.snd).filter
            (fun q => !is_global_setting q && (allow || !from_edit_buffer q))).isEmpty) ∧
      ((presets.foldl (add_preset is_global_setting from_edit_buffer allow) s).failed_add_count
        = 0 ↔ s.failed_add_count = 0 ∧ (presets.map Prod.snd).filter
            (fun q => !is_global_setting q && (allow || !from_edit_buffer q))
          = presets.map Prod.snd) := by
  induction presets with
  | nil => intro s; simp
  | cons p ps ih =>
    intro s
    simp only [List.foldl_cons, List.map_cons]
    obtain ⟨h1, h2, h3⟩ := ih (add_preset is_global_setting from_edit_buffer allow s p)
    rw [h1, h2, h3]
    unfold add_preset
    cases hg : is_global_setting p.2 <;> cases ha : allow <;>
      cases he : from_edit_buffer p.2 <;>
      simp [List.filter_cons, hg, ha, he]
    all_goals
      intro _ hfil
      have hlen := List.length_filter_le
        (fun q => !is_global_setting q && (allow || !from_edit_buffer q)) (ps.map Prod.snd)
      rw [ha] at hlen
      simp only [Bool.false_or, Bool.true_or, Bool.and_true] at hlen
      rw [hfil] at hlen
      simp at hlen

/-- Claim C20: for every map of parsed presets and either setting of
`allow_edit_buffer_presets_`, the presets queued in the add action are, in map order,
exactly those that are not a global setting and that, unless edit-buffer presets are
allowed, do not come from the edit buffer. When none is queued `addPresetsFromFile`
returns -1, writes an error message and hands no action to the undo manager; when
some are, it hands the action with the queued presets to the undo manager. -/
theorem addPresetsFromFile_queues {P : Type}
    (is_global_setting from_edit_buffer : P → Bool) (allow : Bool) (path : String)
    (presets : List (Int × P)) :
    queued is_global_setting from_edit_buffer allow presets
      = (presets.map Prod.snd).filter
          (fun q => !is_global_setting q && (allow || !from_edit_buffer q)) ∧
    (∀ q, q ∈ queued is_global_setting from_edit_buffer allow presets ↔
      q ∈ presets.map Prod.snd ∧ is_global_setting q = false ∧
        (allow = true ∨ from_edit_buffer q = false)) ∧
    addPresetsFromFile is_global_setting from_edit_buffer allow path presets
      = if (queued is_global_setting from_edit_buffer allow presets).isEmpty then
          { ret := -1,
            err := some (if presets.isEmpty then "No presets were found in this file :-|"
              else "Could not add presets from this file: " ++ path ++
                "\nEither the file contains system data or preset(s) without an ID."),
            performed := none }
        else
          { ret := 1, err := none,
            performed := some (queued is_global_setting from_edit_buffer allow presets) } := by
  obtain ⟨h1, h2, h3⟩ := add_preset_foldl is_global_setting from_edit_buffer allow presets
    { action := [], presets_added := false, failed_add_count := 0 }
  have hq : queued is_global_setting from_edit_buffer allow presets
      = (presets.map Prod.snd).filter
          (fun q => !is_global_setting q && (allow || !from_edit_buffer q)) := by
    unfold queued
    rw [h1]
    rfl
  refine ⟨hq, ?_, ?_⟩
  · intro q
    rw [hq, List.mem_filter]
    simp
  · unfold addPresetsFromFile
    simp only
    rw [h2, ← hq]
    cases hql : queued is_global_setting from_edit_buffer allow presets with
    | nil =>
      simp only [List.isEmpty_nil, Bool.not_true, Bool.or_self, Bool.not_false, if_true]
      cases presets with
      | nil => simp
      | cons p ps =>
        have hcount : ¬ (List.foldl (add_preset is_global_setting from_edit_buffer allow)
            { action := [], presets_added := false, failed_add_count := 0 }
            (p :: ps)).failed_add_count = 0 := by
          rw [h3]
          intro h
          rw [← hq, hql] at h
          simp at h
        rw [if_pos hcount]
        rfl
    | cons a l =>
      simp only [List.isEmpty_cons, Bool.not_false, Bool.or_true, Bool.not_true,
        Bool.false_eq_true, if_false]
      rw [← hql]
      rfl

/-! ## What the store can hold -/

theorem store_ok_place (m : PresetMap) (v : Preset) (hm : store_ok m)
    (hv : v.name ≠ "") : store_ok (m.place (v.id, v)) := by
  induction m with
  | nil =>
    intro e he
    simp only [PresetMap.place, List.mem_singleton] at he
    subst he
    exact ⟨hv, rfl⟩
  | cons a rest ih =>
    have hrest : store_ok rest := fun e he => hm e (List.mem_cons_of_mem a he)
    unfold PresetMap.place
    split
    · intro e he
      rcases List.mem_cons.mp he with h | h
      · subst h
        exact ⟨hv, rfl⟩
      · exact hm e h
    · intro e he
      rcases List.mem_cons.mp he with h | h
      · subst h
        exact hm _ (List.mem_cons_self _ _)
      · exact ih hrest e h

theorem store_ok_insert (m : PresetMap) (v : Preset) (hm : store_ok m)
    (hv : v.name ≠ "") : store_ok (m.insert (v.id, v)) := by
  unfold PresetMap.insert
  split
  · exact hm
  · exact store_ok_place m v hm hv

theorem ParseFractalSysEx_store_ok (T : SysExTypes) (mem : Memory)
    (header size : Nat) (st : ParserState) (h : store_ok st.presets_) :
    store_ok (ParseFractalSysEx T mem header size st).1.presets_ := by
  unfold ParseFractalSysEx
  simp only
  split
  · exact h
  · split
    · exact h
    · split
      · exact h
      · split
        · split
          · next hname => exact store_ok_insert st.presets_ st.preset h hname
          · exact h
        · exact h

theorem ParseSingleSysEx_store_ok (T : SysExTypes) (mem : Memory)
    (sys_ex size : Nat) (st : ParserState) (h : store_ok st.presets_) :
    store_ok (ParseSingleSysEx T mem sys_ex size st).1.presets_ := by
  by_cases hf : size < T.kFractalMidiId.length + T.kSysExTerminationByteCount ∨
      manufacturer_bytes T mem sys_ex ≠ T.kFractalMidiId
  · rw [gate_rejects_manufacturer T mem sys_ex size st hf]
    exact h
  · cases hsum : T.VerifyChecksum mem sys_ex size
    · rw [gate_rejects_checksum T mem sys_ex size st hf hsum]
      exact h
    · rw [gate_dispatches T mem sys_ex size st hf hsum]
      exact ParseFractalSysEx_store_ok T mem sys_ex size st h

theorem scan_store_ok (T : SysExTypes) (mem : Memory) :
    ∀ (n pos : Nat) (s : ScanState), store_ok s.st.presets_ →
      store_ok (scan T mem n pos s).state.st.presets_ := by
  intro n
  induction n with
  | zero =>
    intro pos s h
    exact h
  | succ n ih =>
    intro pos s h
    by_cases hstart : mem pos = T.kSysExStart
    · rw [scan_start T mem n pos s hstart]
      exact ih _ _ h
    · by_cases hend : mem pos = T.kSysExEnd
      · have hne : T.kSysExEnd ≠ T.kSysExStart := fun e => hstart (hend.trans e)
        cases hb : s.sys_ex_begins with
        | none =>
          rw [scan, if_neg hstart, if_pos hend]
          simp only [hb]
          exact h
        | some b =>
          rw [scan_end T mem n pos b s hend hne hb]
          exact ih _ _ (ParseSingleSysEx_store_ok T mem b (pos - b + 1) s.st h)
      · rw [scan_plain T mem n pos s hstart hend]
        exact ih _ _ h

theorem ParseSysExBuffer_store_ok (T : SysExTypes) (mem : Memory)
    (begin_ end_ : Nat) (m : PresetMap) (h : store_ok m) :
    store_ok (ParseSysExBuffer T mem begin_ end_ m).state.st.presets_ := by
  have hs := scan_store_ok T mem (end_ - begin_) begin_ (initial m) h
  unfold ParseSysExBuffer
  cases hscan : scan T mem (end_ - begin_) begin_ (initial m) with
  | returned r =>
    rw [hscan] at hs
    exact hs
  | null_dereference r =>
    rw [hscan] at hs
    exact hs

/-- Claim C21: every store that a parser can hold after any number of calls of
`ParseSysExBuffer`, on any buffers, starting from the empty store, has only entries
with a non-empty name and with a key equal to the id of the preset stored under it.
This covers calls that return and calls that stop at a null dereference. -/
theorem reachable_store_ok (T : SysExTypes) (m : PresetMap) (h : Reachable T m) :
    ∀ e ∈ m, e.2.name ≠ "" ∧ e.1 = e.2.id := by
  induction h with
  | empty =>
    intro e he
    simp at he
  | call mem begin_ end_ m _ ih =>
    exact ParseSysExBuffer_store_ok T mem begin_ end_ m ih

/-- Witness of `reachable_store_ok`: the store left by two calls, one on the buffer of
preset 5 "Lead" and one on the buffer of preset 9 "Bass". -/
theorem reachable_store_ok_witness :
    (ParseSysExBuffer sample_types (memory_of sample_bass) 0 132
        (ParseSysExBuffer sample_types (memory_of sample_lead) 0 132 []).state.st.presets_
      ).state.st.presets_
      = [(5, { id := 5, name := "Lead" }), (9, { id := 9, name := "Bass" })] ∧
    ∀ e ∈ (ParseSysExBuffer sample_types (memory_of sample_bass) 0 132
        (ParseSysExBuffer sample_types (memory_of sample_lead) 0 132 []).state.st.presets_
      ).state.st.presets_, e.2.name ≠ "" ∧ e.1 = e.2.id :=
  ⟨by decide,
   reachable_store_ok sample_types _
     (Reachable.call (memory_of sample_bass) 0 132 _
       (Reachable.call (memory_of sample_lead) 0 132 [] Reachable.empty))⟩

/-! ## Dropping the selection -/

/-- Claim C22 at a concrete input: four presets with the ids 0, 1, 2, 3, strictly
increasing, the second one selected, dropped before the fourth (insert index 3, at
most the length of the list). After `itemDropped` has performed its action the first
two presets both have the id 0: the ids are not pairwise distinct. -/
theorem itemDropped_duplicates_id :
    sample_items.Pairwise (fun a b => a.id < b.id) ∧
    3 ≤ sample_items.length ∧
    itemDropped sample_items 3
      = [{ id := 0, name := "A", selected := false }, { id := 0, name := "B", selected := true },
         { id := 1, name := "C", selected := false }, { id := 3, name := "D", selected := false }] ∧
    ¬ ((itemDropped sample_items 3).map fun p => p.id).Nodup := by
  decide

/-! ## Lemmas: positions in the tree -/

theorem getElem?_middle (pre : List PresetItem) (x : PresetItem) (post : List PresetItem) :
    (pre ++ x :: post)[pre.length]? = some x := by
  induction pre with
  | nil => simp
  | cons a pre ih => simpa using ih

theorem id_at_middle (pre : List PresetItem) (x : PresetItem) (post : List PresetItem) :
    id_at (pre ++ x :: post) pre.length = x.id := by
  unfold id_at
  rw [getElem?_middle]

theorem selected_at_middle (pre : List PresetItem) (x : PresetItem)
    (post : List PresetItem) :
    selected_at (pre ++ x :: post) pre.length = x.selected := by
  unfold selected_at
  rw [getElem?_middle]

theorem selected_at_length (l : List PresetItem) : selected_at l l.length = false := by
  unfold selected_at
  simp

theorem set_id_middle (pre : List PresetItem) (x : PresetItem) (post : List PresetItem)
    (v : Int) :
    set_id (pre ++ x :: post) pre.length v = pre ++ { x with id := v } :: post := by
  induction pre with
  | nil => rfl
  | cons a pre ih => simp [set_id, ih]

theorem switch_to_new_append (a b : List PresetIdChange) (l : List PresetItem) :
    switch_to_new (a ++ b) l = switch_to_new b (switch_to_new a l) := by
  unfold switch_to_new
  rw [List.foldl_append]

theorem switch_to_new_run_changes (xs : List PresetItem) :
    ∀ (pre post : List PresetItem) (v : Int),
      switch_to_new (run_changes pre.length v xs) (pre ++ xs ++ post)
        = pre ++ renumber v xs ++ post := by
  induction xs with
  | nil => intro pre post v; rfl
  | cons x xs ih =>
    intro pre post v
    have e1 : pre ++ (x :: xs) ++ post = pre ++ x :: (xs ++ post) := by simp
    have e2 : (pre ++ [{ x with id := v }]).length = pre.length + 1 := by simp
    have step : switch_to_new (run_changes pre.length v (x :: xs)) (pre ++ (x :: xs) ++ post)
        = switch_to_new (run_changes (pre.length + 1) (v + 1) xs)
            (set_id (pre ++ (x :: xs) ++ post) pre.length v) := rfl
    rw [step, e1, set_id_middle, ← e2]
    have e3 : pre ++ { x with id := v } :: (xs ++ post)
        = (pre ++ [{ x with id := v }]) ++ xs ++ post := by simp
    rw [e3, ih]
    simp [renumber]

theorem move_up_run_eq (run : List PresetItem) :
    ∀ (pre : List PresetItem) (p : PresetItem) (post : List PresetItem) (v : Int)
      (A : List PresetIdChange) (fuel : Nat),
      (∀ r ∈ run, r.selected = true) →
      (∀ q, post.head? = some q → q.selected = false) →
      run.length < fuel →
      move_up_run (pre ++ p :: (run ++ post)) fuel pre.length v A
        = (pre.length + 1 + run.length, v + 1 + run.length,
           A ++ run_changes pre.length v (p :: run)) := by
  induction run with
  | nil =>
    intro pre p post v A fuel _ hpost hfuel
    obtain ⟨f, rfl⟩ : ∃ f, fuel = f + 1 := ⟨fuel - 1, by omega⟩
    have hsel : selected_at (pre ++ p :: ([] ++ post)) (pre.length + 1) = false := by
      cases post with
      | nil =>
        have e : pre.length + 1 = (pre ++ p :: ([] ++ ([] : List PresetItem))).length := by simp
        rw [e]
        exact selected_at_length _
      | cons q post =>
        have e : pre ++ p :: ([] ++ q :: post) = (pre ++ [p]) ++ q :: post := by simp
        have e2 : pre.length + 1 = (pre ++ [p]).length := by simp
        rw [e, e2, selected_at_middle]
        exact hpost q rfl
    unfold move_up_run
    simp only [hsel, Bool.false_eq_true, and_false, if_false, AddPreset, id_at_middle,
      run_changes, List.length_nil]
    simp
  | cons r run ih =>
    intro pre p post v A fuel hrun hpost hfuel
    obtain ⟨f, rfl⟩ : ∃ f, fuel = f + 1 := ⟨fuel - 1, by omega⟩
    have e : pre ++ p :: (r :: run ++ post) = (pre ++ [p]) ++ r :: (run ++ post) := by simp
    have e2 : pre.length + 1 = (pre ++ [p]).length := by simp
    have hsel : selected_at (pre ++ p :: (r :: run ++ post)) (pre.length + 1) = true := by
      rw [e, e2, selected_at_middle]
      exact hrun r (List.mem_cons_self r run)
    have hlen : pre.length + 1 < (pre ++ p :: (r :: run ++ post)).length := by
      simp
    unfold move_up_run
    simp only [hsel, hlen, and_self, if_true, AddPreset, id_at_middle]
    rw [e, e2, ih (pre ++ [p]) r post (v + 1) _ f
      (fun x hx => hrun x (List.mem_cons_of_mem r hx)) hpost (by simp at hfuel; omega)]
    simp [run_changes]
    omega

/-! ## Lemmas: the action of moveSelectionUp -/

theorem move_up_loop_done (items : List PresetItem) (fuel i : Nat) (previous : Option Nat)
    (A : List PresetIdChange) (h : items.length ≤ i) :
    move_up_loop items fuel i previous A = A := by
  cases fuel with
  | zero => rfl
  | succ f =>
    unfold move_up_loop
    rw [if_neg (by omega)]

theorem split_run (l : List PresetItem) :
    ∃ run post, l = run ++ post ∧ (∀ r ∈ run, r.selected = true) ∧
      (∀ q, post.head? = some q → q.selected = false) := by
  refine ⟨l.takeWhile fun x => x.selected, l.dropWhile fun x => x.selected,
    (List.takeWhile_append_dropWhile _ l).symm, ?_, ?_⟩
  · intro r hr
    exact List.mem_takeWhile_imp hr
  · intro q hq
    have h := List.head?_dropWhile_not (fun x : PresetItem => x.selected) l
    rw [hq] at h
    exact h

theorem takeWhile_run (run post : List PresetItem) (hrun : ∀ r ∈ run, r.selected = true)
    (hpost : ∀ q, post.head? = some q → q.selected = false) :
    (run ++ post).takeWhile (fun x => x.selected) = run := by
  rw [List.takeWhile_append_of_pos hrun]
  cases post with
  | nil => simp
  | cons q post =>
    have hq := hpost q rfl
    simp [List.takeWhile_cons, hq]

theorem relabel_unselected (st : Option (Int × Nat)) (p : PresetItem)
    (rest : List PresetItem) (h : p.selected = false) :
    relabel st (p :: rest) = relabel none (p :: rest) := by
  simp [relabel, h]

theorem relabel_single (u : PresetItem) : relabel none [u] = [u] := by
  obtain ⟨i, n, s⟩ := u
  cases s <;> simp [relabel]

theorem relabel_run (xs : List PresetItem) :
    ∀ (b : Int) (j : Nat) (post : List PresetItem), (∀ x ∈ xs, x.selected = true) →
      relabel (some (b, j)) (xs ++ post)
        = renumber (b + j) xs ++ relabel (some (b, j + xs.length)) post := by
  induction xs with
  | nil => intro b j post _; simp [renumber]
  | cons x xs ih =>
    intro b j post h
    have hx : x.selected = true := h x (List.mem_cons_self x xs)
    have e1 : b + ((j + 1 : Nat) : Int) = b + (j : Int) + 1 := by push_cast; ring
    have e2 : j + 1 + xs.length = j + (x :: xs).length := by simp; omega
    have step : relabel (some (b, j)) (x :: (xs ++ post))
        = { x with id := b + j } :: relabel (some (b, j + 1)) (xs ++ post) := by
      simp [relabel, hx]
    rw [List.cons_append, step,
      ih b (j + 1) post (fun y hy => h y (List.mem_cons_of_mem x hy)), e1, e2]
    rfl

theorem renumber_length (xs : List PresetItem) : ∀ v : Int, (renumber v xs).length = xs.length := by
  induction xs with
  | nil => intro v; rfl
  | cons x xs ih => intro v; simp [renumber, ih]

theorem switch_to_new_single (c : PresetIdChange) (l : List PresetItem) :
    switch_to_new [c] l = set_id l c.preset c.new_id := rfl

theorem move_up_loop_relabel (items : List PresetItem) :
    ∀ (fuel : Nat) (pre0 pre : List PresetItem) (u : PresetItem) (rest : List PresetItem)
      (A : List PresetIdChange),
      items = pre0 ++ u :: rest → pre.length = pre0.length →
      switch_to_new A items = pre ++ u :: rest → rest.length ≤ fuel →
      switch_to_new (move_up_loop items fuel (pre0.length + 1) (some pre0.length) A) items
        = pre ++ relabel none (u :: rest) := by
  intro fuel
  induction fuel with
  | zero =>
    intro pre0 pre u rest A _ _ hA hf
    have hr : rest = [] := List.length_eq_zero.1 (Nat.le_zero.1 hf)
    subst hr
    rw [relabel_single]
    exact hA
  | succ f ih =>
    intro pre0 pre u rest A hi hl hA hf
    cases rest with
    | nil =>
      rw [move_up_loop_done items _ _ _ _ (by rw [hi]; simp), relabel_single]
      exact hA
    | cons p rest =>
      have hlt : pre0.length + 1 < items.length := by rw [hi]; simp
      have e2 : (pre0 ++ [u]).length = pre0.length + 1 := by simp
      have hp : selected_at items (pre0.length + 1) = p.selected := by
        have e : items = (pre0 ++ [u]) ++ p :: rest := by rw [hi]; simp
        rw [e, ← e2, selected_at_middle]
      have hu : selected_at items pre0.length = u.selected := by
        rw [hi, selected_at_middle]
      have hid : id_at items pre0.length = u.id := by
        rw [hi, id_at_middle]
      unfold move_up_loop
      simp only [hlt, if_true, hp, hu, hid]
      by_cases hc : p.selected = true ∧ u.selected = false
      · rw [if_pos hc]
        obtain ⟨run, post, hrest, hrun, hpost⟩ := split_run rest
        subst hrest
        have e : (pre0 ++ [u]) ++ p :: (run ++ post) = items := by rw [hi]; simp
        have hr : move_up_run items items.length (pre0.length + 1) u.id A
            = (pre0.length + 1 + 1 + run.length, u.id + 1 + run.length,
               A ++ run_changes (pre0.length + 1) u.id (p :: run)) := by
          have h := move_up_run_eq run (pre0 ++ [u]) p post u.id A items.length hrun hpost
            (by rw [hi]; simp; omega)
          rw [e, e2] at h
          exact h
        rw [hr]
        simp only []
        have hsw : switch_to_new (AddPreset items
              (A ++ run_changes (pre0.length + 1) u.id (p :: run)) pre0.length
              (u.id + 1 + run.length)) items
            = pre ++ { u with id := u.id + 1 + run.length } ::
                (renumber u.id (p :: run) ++ post) := by
          unfold AddPreset
          rw [switch_to_new_append, switch_to_new_append, hA, switch_to_new_single]
          have e3 : pre ++ u :: p :: (run ++ post) = (pre ++ [u]) ++ (p :: run) ++ post := by
            simp
          have e4 : pre0.length + 1 = (pre ++ [u]).length := by simp [hl]
          rw [e3, e4, switch_to_new_run_changes]
          have e5 : pre ++ [u] ++ renumber u.id (p :: run) ++ post
              = pre ++ u :: (renumber u.id (p :: run) ++ post) := by simp
          rw [e5]
          simp only []
          rw [← hl, set_id_middle]
        have hk : (List.takeWhile (fun x => x.selected) ((p :: run) ++ post)) = p :: run :=
          takeWhile_run (p :: run) post
            (fun r hr => by
              rcases List.mem_cons.1 hr with h | h
              · rw [h]; exact hc.1
              · exact hrun r h) hpost
        have hrel : relabel none (u :: p :: (run ++ post))
            = { u with id := u.id + 1 + run.length } ::
                (renumber u.id (p :: run) ++ relabel (some (u.id, (p :: run).length)) post) := by
          have h1 : relabel none (u :: ((p :: run) ++ post))
              = { u with id := u.id + ((p :: run) ++ post |>.takeWhile fun x => x.selected).length }
                  :: relabel (some (u.id, 0)) ((p :: run) ++ post) := by
            simp [relabel, hc.2]
          have h2 := relabel_run (p :: run) u.id 0 post
            (fun r hr => by
              rcases List.mem_cons.1 hr with h | h
              · rw [h]; exact hc.1
              · exact hrun r h)
          rw [List.cons_append] at h1 h2 hk
          rw [h1, h2, hk]
          simp
          ring
        cases post with
        | nil =>
          rw [move_up_loop_done items _ _ _ _ (by rw [hi]; simp; omega), hsw, hrel]
          simp [relabel]
        | cons q post =>
          have hq : q.selected = false := hpost q rfl
          have hlt2 : pre0.length + 1 + 1 + run.length < items.length := by
            rw [hi]; simp; omega
          rw [if_pos hlt2]
          have e6 : (pre0 ++ u :: p :: run).length = pre0.length + 1 + 1 + run.length := by
            simp; omega
          have h := ih (pre0 ++ u :: p :: run)
            (pre ++ { u with id := u.id + 1 + run.length } :: renumber u.id (p :: run))
            q post _ (by rw [hi]; simp) (by simp [hl, renumber_length]) 
            (by rw [hsw]; simp) (by simp at hf; omega)
          rw [e6] at h
          rw [h, hrel, relabel_unselected (some (u.id, (p :: run).length)) q post hq]
          simp
      · rw [if_neg hc]
        have h := ih (pre0 ++ [u]) (pre ++ [u]) p rest A (by rw [hi]; simp) (by simp [hl])
          (by rw [hA]; simp) (by simp at hf; omega)
        rw [e2] at h
        rw [h]
        cases hus : u.selected with
        | true =>
          simp [relabel, hus]
        | false =>
          have hps : p.selected = false := by
            cases hps : p.selected with
            | true => exact absurd ⟨hps, hus⟩ hc
            | false => rfl
          have h1 : relabel none (u :: p :: rest)
              = { u with id := u.id + ((p :: rest).takeWhile fun x => x.selected).length }
                  :: relabel (some (u.id, 0)) (p :: rest) := by
            simp [relabel, hus]
          rw [h1, relabel_unselected (some (u.id, 0)) p rest hps]
          simp [List.takeWhile_cons, hps]

/-! ## Lemmas: the list after the move -/

theorem renumber_snoc (xs : List PresetItem) :
    ∀ (v : Int) (p : PresetItem),
      renumber v (xs ++ [p]) = renumber v xs ++ [{ p with id := v + xs.length }] := by
  induction xs with
  | nil => intro v p; simp [renumber]
  | cons x xs ih =>
    intro v p
    have e : v + 1 + (xs.length : Int) = v + ((x :: xs).length : Int) := by
      simp; ring
    have step : ∀ (w : Int) (y : PresetItem) (ys : List PresetItem),
        renumber w (y :: ys) = { y with id := w } :: renumber (w + 1) ys := fun _ _ _ => rfl
    rw [List.cons_append, step, ih, step, ← e]
    rfl

theorem relabel_perm (rest : List PresetItem) :
    (∀ run : List PresetItem,
      List.Perm (run ++ relabel none rest) (move_up_spec none run rest)) ∧
    (∀ (u : PresetItem) (run : List PresetItem),
      List.Perm
        ({ u with id := u.id + (run.length + (rest.takeWhile fun x => x.selected).length : Nat) }
          :: renumber u.id run ++ relabel (some (u.id, run.length)) rest)
        (move_up_spec (some u) run rest)) := by
  induction rest with
  | nil =>
    constructor
    · intro run
      simp [relabel, move_up_spec, emit_run]
    · intro u run
      simp only [relabel, move_up_spec, emit_run, List.takeWhile_nil, List.length_nil,
        Nat.add_zero, List.append_nil]
      exact (List.perm_append_singleton _ _).symm
  | cons p rest ih =>
    cases hp : p.selected with
    | true =>
      constructor
      · intro run
        have h := ih.1 (run ++ [p])
        simpa [relabel, move_up_spec, hp] using h
      · intro u run
        have h := ih.2 u (run ++ [p])
        have e1 : relabel (some (u.id, run.length)) (p :: rest)
            = { p with id := u.id + run.length } :: relabel (some (u.id, run.length + 1)) rest := by
          simp [relabel, hp]
        have e2 : move_up_spec (some u) run (p :: rest) = move_up_spec (some u) (run ++ [p]) rest := by
          simp [move_up_spec, hp]
        have e3 : (List.takeWhile (fun x => x.selected) (p :: rest)).length
            = (List.takeWhile (fun x => x.selected) rest).length + 1 := by
          simp [List.takeWhile_cons, hp]
        rw [e1, e2, e3]
        rw [renumber_snoc] at h
        have e4 : (run ++ [p]).length = run.length + 1 := by simp
        rw [e4] at h
        have e5 : run.length + 1 + (List.takeWhile (fun x => x.selected) rest).length
            = run.length + ((List.takeWhile (fun x => x.selected) rest).length + 1) := by omega
        rw [e5] at h
        simpa using h
    | false =>
      have e1 : ∀ st, relabel st (p :: rest)
          = { p with id := p.id + (rest.takeWhile fun x => x.selected).length }
              :: relabel (some (p.id, 0)) rest := by
        intro st
        simp [relabel, hp]
      have h := ih.2 p []
      simp only [List.length_nil, Nat.zero_add, renumber, List.cons_append, List.nil_append] at h
      constructor
      · intro run
        have e2 : move_up_spec none run (p :: rest) = run ++ move_up_spec (some p) [] rest := by
          simp [move_up_spec, hp, emit_run]
        rw [e1, e2]
        exact List.Perm.append_left run h
      · intro u run
        have e2 : move_up_spec (some u) run (p :: rest)
            = (renumber u.id run ++ [{ u with id := u.id + run.length }])
                ++ move_up_spec (some p) [] rest := by
          simp [move_up_spec, hp, emit_run]
        have e3 : (List.takeWhile (fun x => x.selected) (p :: rest)).length = 0 := by
          simp [List.takeWhile_cons, hp]
        rw [e1, e2, e3]
        have h2 : List.Perm
            ({ u with id := u.id + ((run.length + 0 : Nat) : Int) } :: renumber u.id run)
            (renumber u.id run ++ [{ u with id := u.id + run.length }]) := by
          simpa using (List.perm_append_singleton _ _).symm
        exact List.Perm.append h2 h

theorem renumber_bounds (xs : List PresetItem) :
    ∀ (v : Int), ∀ y ∈ renumber v xs, v ≤ y.id ∧ y.id < v + xs.length := by
  induction xs with
  | nil => intro v y hy; simp [renumber] at hy
  | cons x xs ih =>
    intro v y hy
    simp only [renumber, List.mem_cons] at hy
    rcases hy with h | h
    · subst h
      simp only [List.length_cons]
      push_cast
      omega
    · have := ih (v + 1) y h
      simp only [List.length_cons]
      push_cast
      omega

theorem renumber_sorted (xs : List PresetItem) :
    ∀ (v : Int), (renumber v xs).Pairwise (fun a b => a.id < b.id) := by
  induction xs with
  | nil => intro v; simp [renumber]
  | cons x xs ih =>
    intro v
    simp only [renumber, List.pairwise_cons]
    refine ⟨fun y hy => ?_, ih (v + 1)⟩
    have := (renumber_bounds xs (v + 1) y hy).1
    show v < y.id
    omega

theorem run_gap (run : List PresetItem) :
    ∀ (u : PresetItem) (m : Int), (u :: run).Pairwise (fun a b => a.id < b.id) →
      (∀ a ∈ u :: run, a.id < m) → u.id + run.length < m := by
  induction run with
  | nil =>
    intro u m _ hm
    simpa using hm u (List.mem_cons_self u [])
  | cons r run ih =>
    intro u m hs hm
    have h1 : u.id < r.id := (List.pairwise_cons.1 hs).1 r (List.mem_cons_self r run)
    have h2 := ih r m (List.pairwise_cons.1 hs).2 (fun a ha => hm a (List.mem_cons_of_mem u ha))
    simp only [List.length_cons]
    push_cast
    omega

theorem emit_run_sorted (u : Option PresetItem) (run : List PresetItem)
    (hs : (u.toList ++ run).Pairwise (fun a b => a.id < b.id)) :
    (emit_run u run).Pairwise (fun a b => a.id < b.id) := by
  cases u with
  | none => simpa [emit_run] using hs
  | some u =>
    simp only [emit_run]
    rw [List.pairwise_append]
    refine ⟨renumber_sorted run u.id, List.pairwise_singleton _ _, fun a ha b hb => ?_⟩
    rw [List.mem_singleton] at hb
    subst hb
    exact (renumber_bounds run u.id a ha).2

theorem emit_run_lt (u : Option PresetItem) (run : List PresetItem) (m : Int)
    (hs : (u.toList ++ run).Pairwise (fun a b => a.id < b.id))
    (hm : ∀ a ∈ u.toList ++ run, a.id < m) :
    ∀ a ∈ emit_run u run, a.id < m := by
  cases u with
  | none => simpa [emit_run] using hm
  | some u =>
    have hg := run_gap run u m (by simpa using hs) (by simpa using hm)
    intro a ha
    simp only [emit_run, List.mem_append, List.mem_singleton] at ha
    rcases ha with h | h
    · have := (renumber_bounds run u.id a h).2
      omega
    · subst h
      exact hg

theorem emit_run_lower (u : Option PresetItem) (run : List PresetItem) (m : Int)
    (hm : ∀ a ∈ u.toList ++ run, m ≤ a.id) :
    ∀ a ∈ emit_run u run, m ≤ a.id := by
  cases u with
  | none => simpa [emit_run] using hm
  | some u =>
    have hu : m ≤ u.id := hm u (by simp)
    intro a ha
    simp only [emit_run, List.mem_append, List.mem_singleton] at ha
    rcases ha with h | h
    · have := (renumber_bounds run u.id a h).1
      omega
    · subst h
      show m ≤ u.id + run.length
      omega

theorem move_up_spec_lower (rest : List PresetItem) :
    ∀ (u : Option PresetItem) (run : List PresetItem) (m : Int),
      (∀ a ∈ u.toList ++ run ++ rest, m ≤ a.id) →
      ∀ a ∈ move_up_spec u run rest, m ≤ a.id := by
  induction rest with
  | nil =>
    intro u run m hm
    simpa [move_up_spec] using emit_run_lower u run m (by simpa using hm)
  | cons p rest ih =>
    intro u run m hm
    cases hp : p.selected with
    | true =>
      have e : move_up_spec u run (p :: rest) = move_up_spec u (run ++ [p]) rest := by
        simp [move_up_spec, hp]
      rw [e]
      exact ih u (run ++ [p]) m (by simpa using hm)
    | false =>
      have e : move_up_spec u run (p :: rest)
          = emit_run u run ++ move_up_spec (some p) [] rest := by
        simp [move_up_spec, hp]
      rw [e]
      intro a ha
      rcases List.mem_append.1 ha with h | h
      · exact emit_run_lower u run m
          (fun x hx => hm x (List.mem_append_left _ hx)) a h
      · exact ih (some p) [] m
          (fun x hx => hm x (List.mem_append_right _ (by simpa using hx))) a h

theorem move_up_spec_sorted (rest : List PresetItem) :
    ∀ (u : Option PresetItem) (run : List PresetItem),
      (u.toList ++ run ++ rest).Pairwise (fun a b => a.id < b.id) →
      (move_up_spec u run rest).Pairwise (fun a b => a.id < b.id) := by
  induction rest with
  | nil =>
    intro u run hs
    simpa [move_up_spec] using emit_run_sorted u run (by simpa using hs)
  | cons p rest ih =>
    intro u run hs
    cases hp : p.selected with
    | true =>
      have e : move_up_spec u run (p :: rest) = move_up_spec u (run ++ [p]) rest := by
        simp [move_up_spec, hp]
      rw [e]
      exact ih u (run ++ [p]) (by simpa using hs)
    | false =>
      have e : move_up_spec u run (p :: rest)
          = emit_run u run ++ move_up_spec (some p) [] rest := by
        simp [move_up_spec, hp]
      rw [e]
      obtain ⟨h1, h2, h3⟩ := List.pairwise_append.1 hs
      rw [List.pairwise_append]
      refine ⟨emit_run_sorted u run h1, ih (some p) [] (by simpa using h2), ?_⟩
      intro a ha b hb
      have hlt := emit_run_lt u run p.id h1
        (fun x hx => h3 x hx p (List.mem_cons_self p rest)) a ha
      have hle := move_up_spec_lower rest (some p) [] p.id
        (fun x hx => by
          have hx2 : x = p ∨ x ∈ rest := by simpa using hx
          rcases hx2 with h | h
          · rw [h]
          · exact le_of_lt ((List.pairwise_cons.1 h2).1 x h)) b hb
      show a.id < b.id
      omega

theorem sortPresets_relabel (items : List PresetItem)
    (hs : items.Pairwise (fun a b => a.id < b.id)) :
    sortPresets (relabel none items) = move_up_spec none [] items := by
  have hperm : List.Perm (relabel none items) (move_up_spec none [] items) := by
    simpa using (relabel_perm items).1 []
  have hS := move_up_spec_sorted items none [] (by simpa using hs)
  haveI : IsTotal PresetItem (fun a b => a.id ≤ b.id) := ⟨fun a b => le_total a.id b.id⟩
  haveI : IsTrans PresetItem (fun a b => a.id ≤ b.id) := ⟨fun _ _ _ h1 h2 => le_trans h1 h2⟩
  haveI : IsAntisymm PresetItem (fun a b => a.id < b.id) :=
    ⟨fun _ _ h1 h2 => absurd h1 (not_lt.2 (le_of_lt h2))⟩
  have h1 : (sortPresets (relabel none items)).Sorted (fun a b => a.id ≤ b.id) :=
    List.sorted_insertionSort _ _
  have h2 : List.Perm (sortPresets (relabel none items)) (move_up_spec none [] items) :=
    (List.perm_insertionSort _ _).trans hperm
  have hne : (move_up_spec none [] items).Pairwise (fun a b => a.id ≠ b.id) :=
    hS.imp (fun h => ne_of_lt h)
  have hne2 : (sortPresets (relabel none items)).Pairwise (fun a b => a.id ≠ b.id) :=
    (List.Perm.pairwise_iff (fun h => Ne.symm h) h2).2 hne
  have h3 : (sortPresets (relabel none items)).Pairwise (fun a b => a.id < b.id) :=
    (List.Pairwise.and h1 hne2).imp (fun h => lt_of_le_of_ne h.1 h.2)
  exact List.eq_of_perm_of_sorted h2 h3 hS

theorem move_up_action (items : List PresetItem) :
    switch_to_new (move_up_loop items items.length 0 none []) items = relabel none items := by
  cases items with
  | nil => rfl
  | cons u rest =>
    have e : move_up_loop (u :: rest) (u :: rest).length 0 none []
        = move_up_loop (u :: rest) rest.length 1 (some 0) [] := by
      show move_up_loop (u :: rest) (rest.length + 1) 0 none [] = _
      conv_lhs => unfold move_up_loop
      simp
    rw [e]
    exact move_up_loop_relabel (u :: rest) rest.length [] [] u rest [] rfl rfl rfl (le_refl _)

theorem moveSelectionUp_eq (items : List PresetItem)
    (hs : items.Pairwise (fun a b => a.id < b.id)) :
    moveSelectionUp true items = move_up_spec none [] items := by
  unfold moveSelectionUp
  simp only [Bool.not_true, Bool.false_eq_true, if_false]
  by_cases h : (move_up_loop items items.length 0 none []).length ≠ 0
  · rw [if_pos h]
    unfold perform
    rw [move_up_action, sortPresets_relabel items hs]
  · rw [if_neg h]
    have hA : move_up_loop items items.length 0 none [] = [] :=
      List.length_eq_zero.1 (not_not.1 h)
    have h2 := move_up_action items
    rw [hA] at h2
    have h3 : relabel none items = items := h2.symm
    rw [← sortPresets_relabel items hs, h3]
    exact (List.Sorted.insertionSort_eq (hs.imp fun h => le_of_lt h)).symm

theorem move_up_spec_append (pre : List PresetItem) :
    ∀ (st : Option PresetItem) (run : List PresetItem) (u : PresetItem)
      (rest : List PresetItem), u.selected = false →
      move_up_spec st run (pre ++ u :: rest)
        = move_up_spec st run pre ++ move_up_spec (some u) [] rest := by
  induction pre with
  | nil =>
    intro st run u rest hu
    simp [move_up_spec, hu]
  | cons p pre ih =>
    intro st run u rest hu
    cases hp : p.selected with
    | true => simp [move_up_spec, hp, ih _ _ u rest hu]
    | false => simp [move_up_spec, hp, ih _ _ u rest hu]

theorem move_up_spec_length (rest : List PresetItem) :
    ∀ (st : Option PresetItem) (run : List PresetItem),
      (move_up_spec st run rest).length = st.toList.length + run.length + rest.length := by
  induction rest with
  | nil =>
    intro st run
    cases st with
    | none => simp [move_up_spec, emit_run]
    | some u => simp [move_up_spec, emit_run, renumber_length]; omega
  | cons p rest ih =>
    intro st run
    cases hp : p.selected with
    | true =>
      simp [move_up_spec, hp, ih]
      omega
    | false =>
      cases st with
      | none => simp [move_up_spec, hp, ih, emit_run]; omega
      | some u => simp [move_up_spec, hp, ih, emit_run, renumber_length]; omega

theorem move_up_spec_run (run : List PresetItem) :
    ∀ (st : Option PresetItem) (acc post : List PresetItem),
      (∀ r ∈ run, r.selected = true) →
      move_up_spec st acc (run ++ post) = move_up_spec st (acc ++ run) post := by
  induction run with
  | nil => intro st acc post _; simp
  | cons r run ih =>
    intro st acc post h
    have hr : r.selected = true := h r (List.mem_cons_self r run)
    have e : move_up_spec st acc (r :: (run ++ post))
        = move_up_spec st (acc ++ [r]) (run ++ post) := by
      simp [move_up_spec, hr]
    rw [List.cons_append, e, ih st (acc ++ [r]) post
      (fun y hy => h y (List.mem_cons_of_mem r hy))]
    simp

theorem move_up_spec_moves (pre : List PresetItem) (u : PresetItem)
    (run post : List PresetItem) (hu : u.selected = false)
    (hrun : ∀ r ∈ run, r.selected = true)
    (hpost : ∀ q, post.head? = some q → q.selected = false) :
    ∃ pre2 post2, move_up_spec none [] (pre ++ u :: (run ++ post))
        = pre2 ++ (renumber u.id run ++ { u with id := u.id + run.length } :: post2) ∧
      pre2.length = pre.length ∧ post2.length = post.length := by
  rw [move_up_spec_append pre none [] u (run ++ post) hu, move_up_spec_run run (some u) [] post hrun]
  cases post with
  | nil =>
    refine ⟨move_up_spec none [] pre, [], ?_, ?_, rfl⟩
    · simp [move_up_spec, emit_run]
    · simp [move_up_spec_length]
  | cons q post =>
    have hq : q.selected = false := hpost q rfl
    refine ⟨move_up_spec none [] pre, move_up_spec (some q) [] post, ?_, ?_, ?_⟩
    · simp [move_up_spec, emit_run, hq]
    · simp [move_up_spec_length]
    · simp [move_up_spec_length]
      omega

/-! ## Moving the selection up -/

/-- Claim C23: on a list sorted by strictly increasing id, with drag and drop of
presets allowed, `moveSelectionUp` returns the list that the claim describes
(`move_up_spec`): every maximal run of selected presets with an unselected preset `u`
directly before it stands where `u` stood, with consecutive ids from the old id of `u`
on, and `u` follows it directly with the next id; every other preset keeps its id and
its place in the order; the ids of the result are strictly increasing, hence
pairwise distinct. -/
theorem moveSelectionUp_moves_runs_up (items : List PresetItem)
    (hs : items.Pairwise (fun a b => a.id < b.id)) :
    moveSelectionUp true items = move_up_spec none [] items ∧
    (moveSelectionUp true items).Pairwise (fun a b => a.id < b.id) ∧
    (moveSelectionUp true items).length = items.length ∧
    ∀ (pre : List PresetItem) (u : PresetItem) (run post : List PresetItem),
      items = pre ++ u :: (run ++ post) → u.selected = false →
      (∀ r ∈ run, r.selected = true) →
      (∀ q, post.head? = some q → q.selected = false) →
      ∃ pre2 post2,
        moveSelectionUp true items
          = pre2 ++ (renumber u.id run ++ { u with id := u.id + run.length } :: post2) ∧
        pre2.length = pre.length ∧ post2.length = post.length := by
  have h := moveSelectionUp_eq items hs
  refine ⟨h, ?_, ?_, ?_⟩
  · rw [h]
    exact move_up_spec_sorted items none [] (by simpa using hs)
  · rw [h, move_up_spec_length]
    simp
  · intro pre u run post hi hu hrun hpost
    rw [h, hi]
    exact move_up_spec_moves pre u run post hu hrun hpost

theorem moveSelectionUp_moves_runs_up_witness :
    sample_selection.Pairwise (fun a b => a.id < b.id) ∧
    moveSelectionUp true sample_selection
      = [{ id := 0, name := "A", selected := true }, { id := 1, name := "C", selected := true },
         { id := 2, name := "B", selected := false }, { id := 5, name := "E", selected := true },
         { id := 6, name := "F", selected := true }, { id := 7, name := "D", selected := false },
         { id := 9, name := "G", selected := false }] ∧
    moveSelectionUp true sample_selection = move_up_spec none [] sample_selection :=
  ⟨by decide, by decide, (moveSelectionUp_moves_runs_up sample_selection (by decide)).1⟩

end axefx
